import Mathlib

/-!
MB-Fit, `fitting/2B/A1B2Z2-D1E2/dispersion.cpp`

A shallow embedding of the class `x2b_disp` (two owned coordinate buffers and
the nine-term dispersion sum `get_dispersion`) and the properties its
specification states about it.

* Memory is a list of blocks; a pointer is a block number and an element
  offset.  Every access is checked: `none` stands for undefined behaviour
  (an access outside a block, to a released block or to a double that was
  never written).  The code has no error path of its own.
* `size_t` is 64 bits wide: the product `3*n` of the constructor is taken
  modulo `2^64`.  `Heap.addressable` says that the arrays of a heap have a
  `size_t` element count, as the arrays of a real machine do; an array that
  holds `3*n` doubles then makes the product exact.
* The scalar type `R` stands for `double`.  The code only uses the literal
  `0.0` and `+=`, so the embedding is generic in `[Zero R] [Add R]` and no
  algebraic law is assumed unless a theorem says so.  `Double` below is a
  model of IEEE-754 binary64 addition (round to nearest, ties to even).
* `x6` and the coefficient members are declared in `dispersion.h`, which is not
  part of the sources; they are parameters.  `get_dispersion` takes `x6` as a
  function of four doubles and two points and is the call with a primitive that
  reads the three doubles at each pointer.  `get_dispersion_ptr` takes `x6` as
  a primitive on pointers, which may read or not, and returns the first fault
  of an undefined access; the two agree for a primitive that reads its points.
-/

set_option exponentiation.threshold 4096
set_option maxRecDepth 100000

namespace MBFit

/-! ## IEEE-754 binary64 addition -/

/-- A binary64 datum.  `fin neg m e` is the finite value `(-1)^neg * m * 2^e`;
a double has `m < 2^53` and `-1074 ≤ e ≤ 971`, with `2^52 ≤ m` unless
`e = -1074`.  Zero is `fin neg 0 (-1074)`. -/
inductive Double where
  | nan
  | inf (neg : Bool)
  | fin (neg : Bool) (m : Nat) (e : Int)
deriving DecidableEq, Repr

namespace Double

/-- Number of binary digits of `n`, with fuel `f`. -/
def bitlen_aux : Nat → Nat → Nat
  | 0, _ => 0
  | f + 1, n => if n = 0 then 0 else bitlen_aux f (n / 2) + 1

/-- Number of binary digits of `n`. -/
def bitlen (n : Nat) : Nat := bitlen_aux n n

/-- Least exponent of a double. -/
def emin : Int := -1074

/-- Greatest exponent of a finite double. -/
def emax : Int := 971

/-- The double nearest to `(-1)^neg * n * 2^e`, ties to even, for `0 < n` and
`emin ≤ e`; infinity on overflow. -/
def round (neg : Bool) (n : Nat) (e : Int) : Double :=
  let L := bitlen n
  if L ≤ 53 then
    let s := min (53 - L) (e - emin).toNat
    if e - s > emax then inf neg else fin neg (n * 2 ^ s) (e - s)
  else
    let k := L - 53
    let q := n / 2 ^ k
    let r := n % 2 ^ k
    let half := 2 ^ (k - 1)
    let q1 := if r > half ∨ (r = half ∧ q % 2 = 1) then q + 1 else q
    let m := if q1 = 2 ^ 53 then 2 ^ 52 else q1
    let e1 := if q1 = 2 ^ 53 then e + k + 1 else e + k
    if e1 > emax then inf neg else fin neg m e1

/-- The integer `(-1)^neg * n`. -/
def signed (neg : Bool) (n : Nat) : Int := if neg then -(n : Int) else (n : Int)

/-- The sum `x + y` of two doubles. -/
def add : Double → Double → Double
  | nan, _ => nan
  | _, nan => nan
  | inf s, inf t => if s = t then inf s else nan
  | inf s, fin _ _ _ => inf s
  | fin _ _ _, inf t => inf t
  | fin s m e, fin t n f =>
    let e0 := min e f
    let c := signed s (m * 2 ^ (e - e0).toNat) + signed t (n * 2 ^ (f - e0).toNat)
    if c = 0 then fin (s && t) 0 emin else round (decide (c < 0)) c.natAbs e0

/-- The double nearest to the integer `z`; `ofInt 9` is the literal `9.0`. -/
def ofInt (z : Int) : Double :=
  if z = 0 then fin false 0 emin else round (decide (z < 0)) z.natAbs 0

instance : Zero Double := ⟨fin false 0 emin⟩

instance : Add Double := ⟨add⟩

end Double

/-! ## Memory -/

/-- A `double*`: the block pointed into and the element offset inside it. -/
structure Ptr where
  block : Nat
  off : Nat
deriving DecidableEq, Repr

/-- Pointer arithmetic `p + i`. -/
def Ptr.add (p : Ptr) (i : Nat) : Ptr := ⟨p.block, p.off + i⟩

/-- The heap.  Block `b` is `none` once released; a cell is `none` until a
double has been written to it. -/
structure Heap (R : Type) where
  blocks : List (Option (List (Option R)))
deriving DecidableEq

/-- The cells of the block a pointer points into, when that block is alive. -/
def Heap.cells {R : Type} (h : Heap R) (p : Ptr) : Option (List (Option R)) :=
  (h.blocks[p.block]?).join

/-- Checked read `*p`. -/
def Heap.load {R : Type} (h : Heap R) (p : Ptr) : Option R :=
  match h.cells p with
  | some cs => (cs[p.off]?).join
  | none => none

/-- Checked write `*p = v`. -/
def Heap.store {R : Type} (h : Heap R) (p : Ptr) (v : R) : Option (Heap R) :=
  match h.cells p with
  | some cs =>
    if p.off < cs.length then
      some ⟨h.blocks.set p.block (some (cs.set p.off (some v)))⟩
    else none
  | none => none

/-- Allocation `new double[k]`: a fresh block of `k` unwritten cells.
Allocation failure is not modelled. -/
def Heap.new_array {R : Type} (h : Heap R) (k : Nat) : Heap R × Ptr :=
  (⟨h.blocks ++ [some (List.replicate k none)]⟩, ⟨h.blocks.length, 0⟩)

/-- Release `delete[] p`: `p` must be the start of a block that is alive. -/
def Heap.delete_array {R : Type} (h : Heap R) (p : Ptr) : Option (Heap R) :=
  match h.cells p with
  | some _ => if p.off = 0 then some ⟨h.blocks.set p.block none⟩ else none
  | none => none

/-- The loop of `std::copy(first, first + k, d)`: `*d++ = *first++`, `k` times. -/
def std_copy {R : Type} (h : Heap R) (first : Ptr) : Nat → Ptr → Option (Heap R)
  | 0, _ => some h
  | k + 1, d =>
    match h.load first with
    | some v =>
      match h.store d v with
      | some h1 => std_copy h1 (first.add 1) k (d.add 1)
      | none => none
    | none => none

/-- Range of `size_t` (64 bits). -/
def SIZE_RANGE : Nat := 2 ^ 64

/-- The `size_t` product `a * b`. -/
def size_t_mul (a b : Nat) : Nat := (a * b) % SIZE_RANGE

/-! ## The class `x2b_disp` -/

/-- A point in space: three doubles. -/
abbrev Point (R : Type) := R × R × R

/-- The members `m_C6_AD`, ... of the class; declared in `dispersion.h`. -/
structure Coeffs (R : Type) where
  m_C6_AD : R
  m_d6_AD : R
  m_C6_AE : R
  m_d6_AE : R
  m_C6_BD : R
  m_d6_BD : R
  m_C6_BE : R
  m_d6_BE : R
  m_C8 : R
  m_d8 : R

/-- Modelled from the spec: the type of `x6`, which is declared outside the
sources.  It is called as `x6(C6, d6, C8, d8, p, q)` with four doubles and two
`const double*`; the spec says that it takes "two 3D points in, one scalar
out", so each pointer is consumed as the three doubles it points to, and `x6`
is a function of its arguments that writes nothing. -/
abbrev X6 (R : Type) := R → R → R → R → Point R → Point R → R

/-- The three doubles at `p`, `p + 1`, `p + 2`. -/
def Heap.point {R : Type} (h : Heap R) (p : Ptr) : Option (Point R) := do
  let x ← h.load p
  let y ← h.load (p.add 1)
  let z ← h.load (p.add 2)
  pure (x, y, z)

/-- One call `x6(C6, d6, C8, d8, p, q)` on the heap `h` of a primitive that reads
its two points.  The reads are those of `x6`: `get_dispersion` itself only forms
the pointers.  `X6.deref` is this primitive as a function on pointers and
`get_dispersion_ptr` the function for an arbitrary primitive on pointers. -/
def call_x6 {R : Type} (x6 : X6 R) (h : Heap R) (C6 d6 C8 d8 : R) (p q : Ptr) :
    Option R := do
  let a ← h.point p
  let b ← h.point q
  pure (x6 C6 d6 C8 d8 a b)

/-- The data members `double* xyz1, * xyz2`.  `none` is the indeterminate
value of a pointer that was never assigned. -/
structure x2b_disp where
  xyz1 : Option Ptr
  xyz2 : Option Ptr
deriving DecidableEq, Repr

namespace x2b_disp

/-- Source: `x2b_disp::x2b_disp() {}`. -/
def ctor_default : x2b_disp := ⟨none, none⟩

/-- Source: `x2b_disp::x2b_disp(double * c1, double * c2, size_t n1, size_t n2)`. -/
def ctor {R : Type} (h : Heap R) (c1 c2 : Ptr) (n1 n2 : Nat) :
    Option (Heap R × x2b_disp) :=
  let (h1, xyz1) := h.new_array (size_t_mul 3 n1)
  let (h2, xyz2) := h1.new_array (size_t_mul 3 n2)
  match std_copy h2 c1 (size_t_mul 3 n1) xyz1 with
  | some h3 =>
    match std_copy h3 c2 (size_t_mul 3 n2) xyz2 with
    | some h4 => some (h4, ⟨some xyz1, some xyz2⟩)
    | none => none
  | none => none

/-- Source: `x2b_disp::~x2b_disp()`. -/
def dtor {R : Type} (h : Heap R) (self : x2b_disp) : Option (Heap R) :=
  match self.xyz1, self.xyz2 with
  | some p1, some p2 =>
    match h.delete_array p1 with
    | some h1 => h1.delete_array p2
    | none => none
  | _, _ => none

/-- Source: `double x2b_disp::get_dispersion()`, for an `x6` that reads its two
points.  Returns the value and the heap after the call; `none` when a read of
`x6` is undefined. -/
def get_dispersion {R : Type} [Zero R] [Add R] (x6 : X6 R) (m : Coeffs R)
    (h : Heap R) (self : x2b_disp) : Option (R × Heap R) := do
  let disp : R := 0
  let xyz1 ← self.xyz1
  let xyz2 ← self.xyz2
  let A_1_a := xyz1.add 0
  let B_1_a := xyz1.add 3
  let B_2_a := xyz1.add 6
  let D_1_b := xyz2.add 0
  let E_1_b := xyz2.add 3
  let E_2_b := xyz2.add 6
  let disp := disp + (← call_x6 x6 h m.m_C6_AD m.m_d6_AD m.m_C8 m.m_d8 A_1_a D_1_b)
  let disp := disp + (← call_x6 x6 h m.m_C6_AE m.m_d6_AE m.m_C8 m.m_d8 A_1_a E_1_b)
  let disp := disp + (← call_x6 x6 h m.m_C6_AE m.m_d6_AE m.m_C8 m.m_d8 A_1_a E_2_b)
  let disp := disp + (← call_x6 x6 h m.m_C6_BD m.m_d6_BD m.m_C8 m.m_d8 B_1_a D_1_b)
  let disp := disp + (← call_x6 x6 h m.m_C6_BE m.m_d6_BE m.m_C8 m.m_d8 B_1_a E_1_b)
  let disp := disp + (← call_x6 x6 h m.m_C6_BE m.m_d6_BE m.m_C8 m.m_d8 B_1_a E_2_b)
  let disp := disp + (← call_x6 x6 h m.m_C6_BD m.m_d6_BD m.m_C8 m.m_d8 B_2_a D_1_b)
  let disp := disp + (← call_x6 x6 h m.m_C6_BE m.m_d6_BE m.m_C8 m.m_d8 B_2_a E_1_b)
  let disp := disp + (← call_x6 x6 h m.m_C6_BE m.m_d6_BE m.m_C8 m.m_d8 B_2_a E_2_b)
  pure (disp, h)

end x2b_disp

/-! ## Predicates used in the statements -/

/-- `p` points to at least `k` doubles that can be read. -/
def Heap.readable {R : Type} (h : Heap R) (p : Ptr) (k : Nat) : Prop :=
  ∀ i, i < k → (h.load (p.add i)).isSome = true

instance {R : Type} (h : Heap R) (p : Ptr) (k : Nat) : Decidable (h.readable p k) :=
  inferInstanceAs (Decidable (∀ i, i < k → (h.load (p.add i)).isSome = true))

/-- The `k` cells read from `p` on. -/
def Heap.read_array {R : Type} (h : Heap R) (p : Ptr) (k : Nat) : List (Option R) :=
  (List.range k).map (fun i => h.load (p.add i))


/-- A block fits the address space: its element count is a `size_t`. -/
def block_fits {R : Type} : Option (List (Option R)) → Prop
  | some cs => cs.length < SIZE_RANGE
  | none => True

instance {R : Type} : (b : Option (List (Option R))) → Decidable (block_fits b)
  | some cs => inferInstanceAs (Decidable (cs.length < SIZE_RANGE))
  | none => inferInstanceAs (Decidable True)

/-- Every array of the heap fits the address space of the machine. -/
def Heap.addressable {R : Type} (h : Heap R) : Prop := ∀ b ∈ h.blocks, block_fits b

instance {R : Type} (h : Heap R) : Decidable h.addressable :=
  inferInstanceAs (Decidable (∀ b ∈ h.blocks, block_fits b))

/-- A sequence of writes `*p = v`, as a caller may perform them. -/
def Heap.stores {R : Type} (h : Heap R) : List (Ptr × R) → Option (Heap R)
  | [] => some h
  | w :: ws =>
    match h.store w.1 w.2 with
    | some h1 => h1.stores ws
    | none => none

/-- Construction followed by a call of `get_dispersion`: the value returned. -/
def construct_and_get {R : Type} [Zero R] [Add R] (x6 : X6 R) (m : Coeffs R) (h : Heap R)
    (c1 c2 : Ptr) (n1 n2 : Nat) : Option R :=
  match x2b_disp.ctor h c1 c2 n1 n2 with
  | some (h1, self) => (x2b_disp.get_dispersion x6 m h1 self).map Prod.fst
  | none => none

/-- The first three sites of the array at `c` are the same in `h` and `hs`. -/
def same_sites {R : Type} (h hs : Heap R) (c : Ptr) : Prop :=
  ∀ i, i < 9 → hs.load (c.add i) = h.load (c.add i)

/-- The array at `c` in `hs` is the one in `h` with its second and third site
(elements 3..5 and 6..8) exchanged; the first site is the same. -/
def exchanged_sites {R : Type} (h hs : Heap R) (c : Ptr) : Prop :=
  (∀ i, i < 3 → hs.load (c.add i) = h.load (c.add i)) ∧
  (∀ i, i < 3 → hs.load (c.add (3 + i)) = h.load (c.add (6 + i))) ∧
  (∀ i, i < 3 → hs.load (c.add (6 + i)) = h.load (c.add (3 + i)))

instance {R : Type} [DecidableEq R] (h hs : Heap R) (c : Ptr) :
    Decidable (same_sites h hs c) :=
  inferInstanceAs (Decidable (∀ i, i < 9 → hs.load (c.add i) = h.load (c.add i)))

instance {R : Type} [DecidableEq R] (h hs : Heap R) (c : Ptr) :
    Decidable (exchanged_sites h hs c) :=
  inferInstanceAs (Decidable (
    (∀ i, i < 3 → hs.load (c.add i) = h.load (c.add i)) ∧
    (∀ i, i < 3 → hs.load (c.add (3 + i)) = h.load (c.add (6 + i))) ∧
    (∀ i, i < 3 → hs.load (c.add (6 + i)) = h.load (c.add (3 + i)))))

/-! ## The coefficient table of the specification -/

/-- The four rows of the coefficient table. -/
inductive PairKind where
  | AD
  | AE
  | BD
  | BE
deriving DecidableEq, Repr

/-- The `C6` coefficient of a row. -/
def Coeffs.C6 {R : Type} (m : Coeffs R) : PairKind → R
  | .AD => m.m_C6_AD
  | .AE => m.m_C6_AE
  | .BD => m.m_C6_BD
  | .BE => m.m_C6_BE

/-- The `d6` coefficient of a row. -/
def Coeffs.d6 {R : Type} (m : Coeffs R) : PairKind → R
  | .AD => m.m_d6_AD
  | .AE => m.m_d6_AE
  | .BD => m.m_d6_BD
  | .BE => m.m_d6_BE

/-- The row of the table for the A-side site `i` and the B-side site `j`:
site 0 is A, respectively D; sites 1 and 2 are B, respectively E. -/
def table_row (i j : Fin 3) : PairKind :=
  if i = 0 then (if j = 0 then .AD else .AE) else (if j = 0 then .BD else .BE)

/-- The nine terms in the order of the calls: the row used and the numbers of
the A-side and B-side site. -/
def pair_table : List (PairKind × Fin 3 × Fin 3) :=
  [(.AD, 0, 0), (.AE, 0, 1), (.AE, 0, 2),
   (.BD, 1, 0), (.BE, 1, 1), (.BE, 1, 2),
   (.BD, 2, 0), (.BE, 2, 1), (.BE, 2, 2)]

/-- The sum of the table's terms from left to right, starting from `0.0`. -/
def table_sum {R : Type} [Zero R] [Add R] (x6 : X6 R) (m : Coeffs R)
    (sa sb : Fin 3 → Point R) : R :=
  pair_table.foldl
    (fun acc t => acc + x6 (m.C6 t.1) (m.d6 t.1) m.m_C8 m.m_d8 (sa t.2.1) (sb t.2.2)) 0

/-- The points of a fragment by site number. -/
def sites {R : Type} (a b c : Point R) : Fin 3 → Point R
  | 0 => a
  | 1 => b
  | 2 => c

/-! ## Concrete data for the examples -/

/-- Two caller arrays of integers: ten doubles and nine doubles. -/
def example_heap : Heap Int :=
  ⟨[some [some 1, some 2, some 3, some 4, some 5, some 6, some 7, some 8, some 9, some 10],
    some [some 11, some 12, some 13, some 14, some 15, some 16, some 17, some 18, some 19]]⟩

/-- The arrays of `example_heap` with the sites at elements 3..5 and 6..8 of the
second array exchanged. -/
def example_heap_E_exchanged : Heap Int :=
  ⟨[some [some 1, some 2, some 3, some 4, some 5, some 6, some 7, some 8, some 9, some 10],
    some [some 11, some 12, some 13, some 17, some 18, some 19, some 14, some 15, some 16]]⟩

/-- The arrays of `example_heap` with the sites at elements 3..5 and 6..8 after
the pointer to element 1 of the first array exchanged. -/
def example_heap_B_exchanged : Heap Int :=
  ⟨[some [some 1, some 2, some 3, some 4, some 8, some 9, some 10, some 5, some 6, some 7],
    some [some 11, some 12, some 13, some 14, some 15, some 16, some 17, some 18, some 19]]⟩

/-- The heap after construction from `example_heap` with `c1` at element 1 of
the first array, `c2` at the second array and `n1 = n2 = 3`. -/
def example_built : Heap Int :=
  ⟨[some [some 1, some 2, some 3, some 4, some 5, some 6, some 7, some 8, some 9, some 10],
    some [some 11, some 12, some 13, some 14, some 15, some 16, some 17, some 18, some 19],
    some [some 2, some 3, some 4, some 5, some 6, some 7, some 8, some 9, some 10],
    some [some 11, some 12, some 13, some 14, some 15, some 16, some 17, some 18, some 19]]⟩

/-- The object constructed from `example_heap`. -/
def example_object : x2b_disp := ⟨some ⟨2, 0⟩, some ⟨3, 0⟩⟩

/-- Two writes to the caller's arrays. -/
def example_writes : List (Ptr × Int) := [(⟨0, 1⟩, 100), (⟨1, 3⟩, -7)]

/-- The heap `example_built` after `example_writes`. -/
def example_written : Heap Int :=
  ⟨[some [some 1, some 100, some 3, some 4, some 5, some 6, some 7, some 8, some 9, some 10],
    some [some 11, some 12, some 13, some (-7), some 15, some 16, some 17, some 18, some 19],
    some [some 2, some 3, some 4, some 5, some 6, some 7, some 8, some 9, some 10],
    some [some 11, some 12, some 13, some 14, some 15, some 16, some 17, some 18, some 19]]⟩

/-- Two caller arrays of nine zeros. -/
def zero_heap : Heap Int :=
  ⟨[some [some 0, some 0, some 0, some 0, some 0, some 0, some 0, some 0, some 0],
    some [some 0, some 0, some 0, some 0, some 0, some 0, some 0, some 0, some 0]]⟩

/-- Ten distinct coefficients. -/
def example_coeffs : Coeffs Int := ⟨1, 2, 3, 4, 5, 6, 7, 8, 9, 10⟩

/-- A stub for `x6` that tells all its arguments apart. -/
def example_x6 : X6 Int := fun C6 d6 C8 d8 a b =>
  C6 + 2 * d6 + 3 * C8 + 5 * d8 + 7 * a.1 + 11 * a.2.1 + 13 * a.2.2
    + 17 * b.1 + 19 * b.2.1 + 23 * b.2.2

/-- The double `z.0` for an integer `z`. -/
def dbl (z : Int) : Option Double := some (Double.ofInt z)

/-- Coefficients that are all `0.0`. -/
def zero_coeffs : Coeffs Double := ⟨0, 0, 0, 0, 0, 0, 0, 0, 0, 0⟩

/-- A stub for `x6` that returns the first coordinate of the B-side point. -/
def stub_x6_second : X6 Double := fun _ _ _ _ _ b => b.1

/-- A stub for `x6` that returns the first coordinate of the A-side point. -/
def stub_x6_first : X6 Double := fun _ _ _ _ a _ => a.1

/-- Nine doubles `0.0`. -/
def zero_array : Option (List (Option Double)) :=
  some [dbl 0, dbl 0, dbl 0, dbl 0, dbl 0, dbl 0, dbl 0, dbl 0, dbl 0]

/-- First array all zero; second array D = (1,0,0), E1 = (2^53,0,0),
E2 = (-2^53,0,0). -/
def heap_E : Heap Double :=
  ⟨[zero_array, some [dbl 1, dbl 0, dbl 0, dbl (2 ^ 53), dbl 0, dbl 0,
    dbl (-(2 ^ 53)), dbl 0, dbl 0]]⟩

/-- The arrays of `heap_E` with the two E sites exchanged. -/
def heap_E_exchanged : Heap Double :=
  ⟨[zero_array, some [dbl 1, dbl 0, dbl 0, dbl (-(2 ^ 53)), dbl 0, dbl 0,
    dbl (2 ^ 53), dbl 0, dbl 0]]⟩

/-- First array A = (0,0,0), B1 = (1,0,0), B2 = (2^53,0,0); second array all zero. -/
def heap_B : Heap Double :=
  ⟨[some [dbl 0, dbl 0, dbl 0, dbl 1, dbl 0, dbl 0, dbl (2 ^ 53), dbl 0, dbl 0],
    zero_array]⟩

/-- The arrays of `heap_B` with the two B sites exchanged. -/
def heap_B_exchanged : Heap Double :=
  ⟨[some [dbl 0, dbl 0, dbl 0, dbl (2 ^ 53), dbl 0, dbl 0, dbl 1, dbl 0, dbl 0],
    zero_array]⟩

/-! ## Positional arguments, allocation steps and more data -/

/-- One argument of a call of `x6` as it stands at its position in the call: a
double, or a `const double*` consumed as a point. -/
inductive Arg (R : Type) where
  | scalar (x : R)
  | point (p : Point R)
deriving DecidableEq, Repr

/-- A primitive given by what it does with the list of its arguments.  The
call `x6(C6, d6, C8, d8, p, q)` of the source hands over the six arguments in
the order in which they are written there. -/
def positional {R : Type} (f : List (Arg R) → R) : X6 R :=
  fun C6 d6 C8 d8 p q =>
    f [.scalar C6, .scalar d6, .scalar C8, .scalar d8, .point p, .point q]

/-- A stub that returns 1 when its arguments are two points followed by four
doubles, and 0 otherwise. -/
def points_first : List (Arg Int) → Int
  | [.point _, .point _, .scalar _, .scalar _, .scalar _, .scalar _] => 1
  | _ => 0

/-- A stub that returns 1 when its arguments are four doubles followed by two
points, and 0 otherwise. -/
def points_last : List (Arg Int) → Int
  | [.scalar _, .scalar _, .scalar _, .scalar _, .point _, .point _] => 1
  | _ => 0

/-- The default constructor as a step on the heap: its body is empty, the heap
stays as it is and both members stay indeterminate. -/
def x2b_disp.ctor_default_step {R : Type} (h : Heap R) : Heap R × x2b_disp :=
  (h, x2b_disp.ctor_default)

/-- The heap `example_built` after the destructor of `example_object`. -/
def example_destroyed : Heap Int :=
  ⟨[some [some 1, some 2, some 3, some 4, some 5, some 6, some 7, some 8, some 9, some 10],
    some [some 11, some 12, some 13, some 14, some 15, some 16, some 17, some 18, some 19],
    none, none]⟩

/-- Two caller arrays of four and of five sites; their first three sites are the
sites of `example_heap` from element 1 of its first array and from its second
array. -/
def long_heap : Heap Int :=
  ⟨[some [some 2, some 3, some 4, some 5, some 6, some 7, some 8, some 9, some 10,
      some 100, some 101, some 102],
    some [some 11, some 12, some 13, some 14, some 15, some 16, some 17, some 18, some 19,
      some 200, some 201, some 202, some 203, some 204, some 205]]⟩

/-! ## The primitive on pointers, with the fault of an undefined access -/

/-- Why an access has no defined result. -/
inductive Fault where
  | out_of_bounds (p : Ptr) (len : Nat)
  | dead_block (p : Ptr)
  | unwritten (p : Ptr)
  | indeterminate
deriving DecidableEq, Repr

/-- Checked read `*p` that tells what went wrong: `out_of_bounds p len` is a read
of element `p.off` of a block that has only `len ≤ p.off` elements. -/
def Heap.read {R : Type} (h : Heap R) (p : Ptr) : Except Fault R :=
  match h.cells p with
  | none => .error (.dead_block p)
  | some cs =>
    match cs[p.off]? with
    | none => .error (.out_of_bounds p cs.length)
    | some none => .error (.unwritten p)
    | some (some v) => .ok v

/-- The three doubles at `p`, `p + 1`, `p + 2`, read in this order. -/
def Heap.read_point {R : Type} (h : Heap R) (p : Ptr) : Except Fault (Point R) := do
  let x ← h.read p
  let y ← h.read (p.add 1)
  let z ← h.read (p.add 2)
  pure (x, y, z)

/-- The primitive `x6` as the source sees it: four doubles, two `const double*`
and the memory they point into, which it can read and cannot write. -/
abbrev X6ptr (R : Type) := R → R → R → R → Ptr → Ptr → Heap R → Except Fault R

/-- Modelled from the spec: a primitive that consumes its two pointers as 3D
points.  It reads the three doubles at the first pointer, then the three at the
second, and applies a function of the four doubles and the two points. -/
def X6.deref {R : Type} (x6 : X6 R) : X6ptr R := fun C6 d6 C8 d8 p q h => do
  let a ← h.read_point p
  let b ← h.read_point q
  pure (x6 C6 d6 C8 d8 a b)

/-- A stub primitive that returns `c` and reads nothing. -/
def X6ptr.const {R : Type} (c : R) : X6ptr R := fun _ _ _ _ _ _ _ => .ok c

/-- The value of a pointer member, when it has been assigned. -/
def member (x : Option Ptr) : Except Fault Ptr :=
  match x with
  | some p => .ok p
  | none => .error .indeterminate

/-- Source: `double x2b_disp::get_dispersion()`, with `x6` as a primitive on
pointers.  The function forms the six pointers and hands them to `x6`; it
reads no double itself.  Returns the value and the heap after the call, or the
first fault. -/
def x2b_disp.get_dispersion_ptr {R : Type} [Zero R] [Add R] (x6 : X6ptr R) (m : Coeffs R)
    (h : Heap R) (self : x2b_disp) : Except Fault (R × Heap R) := do
  let disp : R := 0
  let xyz1 ← member self.xyz1
  let xyz2 ← member self.xyz2
  let A_1_a := xyz1.add 0
  let B_1_a := xyz1.add 3
  let B_2_a := xyz1.add 6
  let D_1_b := xyz2.add 0
  let E_1_b := xyz2.add 3
  let E_2_b := xyz2.add 6
  let disp := disp + (← x6 m.m_C6_AD m.m_d6_AD m.m_C8 m.m_d8 A_1_a D_1_b h)
  let disp := disp + (← x6 m.m_C6_AE m.m_d6_AE m.m_C8 m.m_d8 A_1_a E_1_b h)
  let disp := disp + (← x6 m.m_C6_AE m.m_d6_AE m.m_C8 m.m_d8 A_1_a E_2_b h)
  let disp := disp + (← x6 m.m_C6_BD m.m_d6_BD m.m_C8 m.m_d8 B_1_a D_1_b h)
  let disp := disp + (← x6 m.m_C6_BE m.m_d6_BE m.m_C8 m.m_d8 B_1_a E_1_b h)
  let disp := disp + (← x6 m.m_C6_BE m.m_d6_BE m.m_C8 m.m_d8 B_1_a E_2_b h)
  let disp := disp + (← x6 m.m_C6_BD m.m_d6_BD m.m_C8 m.m_d8 B_2_a D_1_b h)
  let disp := disp + (← x6 m.m_C6_BE m.m_d6_BE m.m_C8 m.m_d8 B_2_a E_1_b h)
  let disp := disp + (← x6 m.m_C6_BE m.m_d6_BE m.m_C8 m.m_d8 B_2_a E_2_b h)
  pure (disp, h)

/-- The site count whose product with 3 wraps around to 2 in `size_t`. -/
def wrap_count : Nat := 6148914691236517206

/-- The heap after construction from `example_heap` with `n1 = wrap_count` and
`n2 = 3`: the first buffer has two elements. -/
def wrapped_built : Heap Int :=
  ⟨[some [some 1, some 2, some 3, some 4, some 5, some 6, some 7, some 8, some 9, some 10],
    some [some 11, some 12, some 13, some 14, some 15, some 16, some 17, some 18, some 19],
    some [some 2, some 3],
    some [some 11, some 12, some 13, some 14, some 15, some 16, some 17, some 18, some 19]]⟩

open x2b_disp

variable {R : Type}

theorem Heap.load_isSome_block {h : Heap R} {p : Ptr} (hp : (h.load p).isSome = true) :
    p.block < h.blocks.length := by
  unfold Heap.load Heap.cells at hp
  by_contra hlt
  rw [List.getElem?_eq_none (Nat.le_of_not_lt hlt)] at hp
  simp at hp

theorem Heap.load_append (h : Heap R) (xs : List (Option (List (Option R)))) (p : Ptr)
    (hp : p.block < h.blocks.length) : Heap.load ⟨h.blocks ++ xs⟩ p = h.load p := by
  unfold Heap.load Heap.cells
  simp only
  rw [List.getElem?_append_left hp]

theorem Heap.load_set_ne (h : Heap R) (b : Nat) (x : Option (List (Option R))) (p : Ptr)
    (hp : p.block ≠ b) : Heap.load ⟨h.blocks.set b x⟩ p = h.load p := by
  unfold Heap.load Heap.cells
  simp only
  rw [List.getElem?_set_ne (Ne.symm hp)]

theorem Heap.load_of_cells {h : Heap R} {p : Ptr} {cs : List (Option R)}
    (hc : h.blocks[p.block]? = some (some cs)) : h.load p = (cs[p.off]?).join := by
  unfold Heap.load Heap.cells
  rw [hc]; rfl

theorem list_set_same {α : Type} (l : List α) (i : Nat) (a : α) (hl : l[i]? = some a) :
    l.set i a = l := by
  apply List.ext_getElem?
  intro n
  by_cases hn : i = n
  · subst hn
    have hi : i < l.length := by
      by_contra hlt
      rw [List.getElem?_eq_none (Nat.le_of_not_lt hlt)] at hl
      cases hl
    rw [List.getElem?_set_self hi, hl]
  · rw [List.getElem?_set_ne hn]

theorem std_copy_spec (k : Nat) : ∀ (g : Heap R) (first : Ptr) (bd doff : Nat)
    (dst : List (Option R)),
    g.blocks[bd]? = some (some dst) → (0 < k → first.block ≠ bd) →
    g.readable first k → doff + k ≤ dst.length →
    ∃ dst1 : List (Option R),
      std_copy g first k ⟨bd, doff⟩ = some ⟨g.blocks.set bd (some dst1)⟩ ∧
      dst1.length = dst.length ∧
      ∀ j, dst1[j]? = if doff ≤ j ∧ j < doff + k then some (g.load (first.add (j - doff)))
        else dst[j]? := by
  induction k with
  | zero =>
    intro g first bd doff dst hb _ _ _
    refine ⟨dst, ?_, rfl, ?_⟩
    · simp only [std_copy]
      congr 1
      cases g with
      | mk bl =>
        simp only [Heap.mk.injEq]
        simp only at hb
        exact (list_set_same bl bd (some dst) hb).symm
    · intro j
      have : ¬ (doff ≤ j ∧ j < doff + 0) := by omega
      rw [if_neg this]
  | succ k ih =>
    intro g first bd doff dst hb hne hr hlen
    have hne1 : first.block ≠ bd := hne (Nat.succ_pos k)
    have h0 := hr 0 (Nat.succ_pos k)
    obtain ⟨v, hv⟩ := Option.isSome_iff_exists.mp h0
    have hfirst0 : first.add 0 = first := by cases first; rfl
    rw [hfirst0] at hv
    have hstore : g.store ⟨bd, doff⟩ v
        = some ⟨g.blocks.set bd (some (dst.set doff (some v)))⟩ := by
      unfold Heap.store Heap.cells
      simp only [hb, Option.join]
      have : doff < dst.length := by omega
      simp [this]
    have hbd : bd < g.blocks.length := by
      by_contra hlt
      rw [List.getElem?_eq_none (Nat.le_of_not_lt hlt)] at hb
      cases hb
    obtain ⟨dst1, hcopy, hlen1, hget⟩ := ih ⟨g.blocks.set bd (some (dst.set doff (some v)))⟩
      (first.add 1) bd (doff + 1) (dst.set doff (some v))
      (by simp only; rw [List.getElem?_set_self hbd])
      (fun _ => hne1)
      (by
        intro i hi
        have := hr (i + 1) (by omega)
        rw [Heap.load_set_ne _ _ _ _ (by exact hne1)]
        have e : (first.add 1).add i = first.add (i + 1) := by
          cases first; simp [Ptr.add]; omega
        rw [e]; exact this)
      (by rw [List.length_set]; omega)
    refine ⟨dst1, ?_, ?_, ?_⟩
    · simp only [std_copy, hv, hstore]
      have e : (⟨bd, doff⟩ : Ptr).add 1 = ⟨bd, doff + 1⟩ := rfl
      rw [e, hcopy]
      simp [List.set_set]
    · rw [hlen1, List.length_set]
    · intro j
      rw [hget j]
      by_cases hj : doff + 1 ≤ j ∧ j < doff + 1 + k
      · have hj2 : doff ≤ j ∧ j < doff + (k + 1) := by omega
        rw [if_pos hj, if_pos hj2]
        rw [Heap.load_set_ne _ _ _ _ (by exact hne1)]
        have e : (first.add 1).add (j - (doff + 1)) = first.add (j - doff) := by
          cases first; simp [Ptr.add]; omega
        rw [e]
      · rw [if_neg hj]
        by_cases hj0 : j = doff
        · subst hj0
          have hj2 : j ≤ j ∧ j < j + (k + 1) := by omega
          rw [if_pos hj2]
          have : j < dst.length := by omega
          rw [List.getElem?_set_self this]
          simp [hfirst0, hv]
        · have hj2 : ¬ (doff ≤ j ∧ j < doff + (k + 1)) := by omega
          rw [if_neg hj2, List.getElem?_set_ne (Ne.symm hj0)]

theorem list_append_two_set {α : Type} (l : List α) (a b x y : α) :
    (((l ++ [a]) ++ [b]).set l.length x).set (l.length + 1) y = l ++ [x, y] := by
  induction l with
  | nil => rfl
  | cons c l ih => simp [ih]

theorem list_append_two_fst {α : Type} (l : List α) (a b : α) :
    ((l ++ [a]) ++ [b])[l.length]? = some a := by
  induction l with
  | nil => rfl
  | cons c l ih => simpa using ih

theorem list_append_two_snd {α : Type} (l : List α) (a b : α) :
    ((l ++ [a]) ++ [b])[l.length + 1]? = some b := by
  induction l with
  | nil => rfl
  | cons c l ih => simpa using ih

theorem Heap.read_array_getElem? (h : Heap R) (p : Ptr) (k j : Nat) :
    (h.read_array p k)[j]? = if j < k then some (h.load (p.add j)) else none := by
  unfold Heap.read_array
  by_cases hj : j < k
  · rw [if_pos hj, List.getElem?_map, List.getElem?_range hj]; rfl
  · rw [if_neg hj]
    apply List.getElem?_eq_none
    simp only [List.length_map, List.length_range]
    omega

theorem Heap.read_array_length (h : Heap R) (p : Ptr) (k : Nat) :
    (h.read_array p k).length = k := by
  simp [Heap.read_array]

theorem ptr_add_zero (p : Ptr) : p.add 0 = p := by cases p; rfl

theorem ptr_add_add (p : Ptr) (i j : Nat) : (p.add i).add j = p.add (i + j) := by
  cases p; simp [Ptr.add]; omega

theorem Heap.readable_block {h : Heap R} {p : Ptr} {k : Nat} (hr : h.readable p k)
    (hk : 0 < k) : p.block < h.blocks.length := by
  have := Heap.load_isSome_block (hr 0 hk)
  simpa [Ptr.add] using this

theorem std_copy_fresh (g : Heap R) (h : Heap R) (c : Ptr) (k bd : Nat)
    (hb : g.blocks[bd]? = some (some (List.replicate k none)))
    (hL : h.blocks.length ≤ bd)
    (hr : h.readable c k)
    (hload : ∀ p : Ptr, p.block < h.blocks.length → g.load p = h.load p) :
    std_copy g c k ⟨bd, 0⟩ = some ⟨g.blocks.set bd (some (h.read_array c k))⟩ := by
  have hblk : 0 < k → c.block < h.blocks.length := fun hk => Heap.readable_block hr hk
  obtain ⟨dst1, hcopy, hlen, hget⟩ := std_copy_spec k g c bd 0 (List.replicate k none) hb
    (fun hk => by have := hblk hk; omega)
    (fun i hi => by
      have hlt : (c.add i).block < h.blocks.length := hblk (by omega)
      rw [hload _ hlt]; exact hr i hi)
    (by simp)
  rw [hcopy]
  have : dst1 = h.read_array c k := by
    apply List.ext_getElem?
    intro j
    rw [hget j, Heap.read_array_getElem?]
    by_cases hj : j < k
    · have hj2 : 0 ≤ j ∧ j < 0 + k := by omega
      have hlt : (c.add j).block < h.blocks.length := hblk (by omega)
      rw [if_pos hj, if_pos hj2, Nat.sub_zero, hload _ hlt]
    · have hj2 : ¬ (0 ≤ j ∧ j < 0 + k) := by omega
      rw [if_neg hj, if_neg hj2]
      apply List.getElem?_eq_none
      simp only [List.length_replicate]; omega
  rw [this]

/-- The heap that the constructor leaves: two new blocks holding the copies. -/
theorem ctor_eq (h : Heap R) (c1 c2 : Ptr) (n1 n2 : Nat)
    (hr1 : h.readable c1 (size_t_mul 3 n1)) (hr2 : h.readable c2 (size_t_mul 3 n2)) :
    ctor h c1 c2 n1 n2 = some
      (⟨h.blocks ++ [some (h.read_array c1 (size_t_mul 3 n1)),
          some (h.read_array c2 (size_t_mul 3 n2))]⟩,
        ⟨some ⟨h.blocks.length, 0⟩, some ⟨h.blocks.length + 1, 0⟩⟩) := by
  unfold ctor Heap.new_array
  simp only [List.length_append, List.length_singleton]
  have e1 := std_copy_fresh
    (⟨h.blocks ++ [some (List.replicate (size_t_mul 3 n1) none)]
      ++ [some (List.replicate (size_t_mul 3 n2) none)]⟩ : Heap R) h c1 (size_t_mul 3 n1)
    h.blocks.length (list_append_two_fst _ _ _) (Nat.le_refl _) hr1
    (fun p hp => by
      rw [show (h.blocks ++ [some (List.replicate (size_t_mul 3 n1) none)]
        ++ [some (List.replicate (size_t_mul 3 n2) none)]) = h.blocks ++
          ([some (List.replicate (size_t_mul 3 n1) none)]
            ++ [some (List.replicate (size_t_mul 3 n2) none)]) by simp]
      exact Heap.load_append h _ p hp)
  rw [e1]
  simp only
  have e2 := std_copy_fresh
    (⟨(h.blocks ++ [some (List.replicate (size_t_mul 3 n1) none)]
      ++ [some (List.replicate (size_t_mul 3 n2) none)]).set h.blocks.length
        (some (h.read_array c1 (size_t_mul 3 n1)))⟩ : Heap R) h c2 (size_t_mul 3 n2)
    (h.blocks.length + 1)
    (by
      simp only
      rw [List.getElem?_set_ne (by omega)]
      exact list_append_two_snd _ _ _)
    (by omega) hr2
    (fun p hp => by
      rw [Heap.load_set_ne _ _ _ _ (by omega)]
      rw [show (h.blocks ++ [some (List.replicate (size_t_mul 3 n1) none)]
        ++ [some (List.replicate (size_t_mul 3 n2) none)]) = h.blocks ++
          ([some (List.replicate (size_t_mul 3 n1) none)]
            ++ [some (List.replicate (size_t_mul 3 n2) none)]) by simp]
      exact Heap.load_append h _ p hp)
  rw [e2]
  simp only [list_append_two_set]

theorem Heap.load_new_fst (h : Heap R) (B1 B2 : List (Option R)) (i : Nat) :
    Heap.load ⟨h.blocks ++ [some B1, some B2]⟩ ⟨h.blocks.length, i⟩ = (B1[i]?).join := by
  apply Heap.load_of_cells
  show (h.blocks ++ [some B1, some B2])[h.blocks.length]? = some (some B1)
  rw [List.getElem?_append_right (Nat.le_refl _), Nat.sub_self]
  rfl

theorem Heap.load_new_snd (h : Heap R) (B1 B2 : List (Option R)) (i : Nat) :
    Heap.load ⟨h.blocks ++ [some B1, some B2]⟩ ⟨h.blocks.length + 1, i⟩ = (B2[i]?).join := by
  apply Heap.load_of_cells
  show (h.blocks ++ [some B1, some B2])[h.blocks.length + 1]? = some (some B2)
  rw [List.getElem?_append_right (by omega), Nat.add_sub_cancel_left]
  rfl

theorem Heap.read_array_join (h : Heap R) (c : Ptr) (k i : Nat) :
    ((h.read_array c k)[i]?).join = if i < k then h.load (c.add i) else none := by
  rw [Heap.read_array_getElem?]
  split <;> rfl

/-- Reading the first buffer after construction. -/
theorem load_xyz1 (h : Heap R) (c1 c2 : Ptr) (k1 k2 i : Nat) :
    Heap.load ⟨h.blocks ++ [some (h.read_array c1 k1), some (h.read_array c2 k2)]⟩
      ((⟨h.blocks.length, 0⟩ : Ptr).add i) = if i < k1 then h.load (c1.add i) else none := by
  have : ((⟨h.blocks.length, 0⟩ : Ptr).add i) = ⟨h.blocks.length, i⟩ := by simp [Ptr.add]
  rw [this, Heap.load_new_fst, Heap.read_array_join]

/-- Reading the second buffer after construction. -/
theorem load_xyz2 (h : Heap R) (c1 c2 : Ptr) (k1 k2 i : Nat) :
    Heap.load ⟨h.blocks ++ [some (h.read_array c1 k1), some (h.read_array c2 k2)]⟩
      ((⟨h.blocks.length + 1, 0⟩ : Ptr).add i) = if i < k2 then h.load (c2.add i) else none := by
  have : ((⟨h.blocks.length + 1, 0⟩ : Ptr).add i) = ⟨h.blocks.length + 1, i⟩ := by
    simp [Ptr.add]
  rw [this, Heap.load_new_snd, Heap.read_array_join]

theorem Heap.point_congr (h g : Heap R) (p q : Ptr) (off : Nat)
    (hl : ∀ i, i < 3 → h.load (p.add (off + i)) = g.load (q.add (off + i))) :
    h.point (p.add off) = g.point (q.add off) := by
  unfold Heap.point
  have e0 := hl 0 (by omega)
  have e1 := hl 1 (by omega)
  have e2 := hl 2 (by omega)
  rw [ptr_add_add, ptr_add_add, ptr_add_add, ptr_add_add]
  rw [Nat.add_zero] at e0
  rw [e0, e1, e2]

theorem Heap.point_congr_off (h g : Heap R) (p q : Ptr) (off off2 : Nat)
    (hl : ∀ i, i < 3 → h.load (p.add (off + i)) = g.load (q.add (off2 + i))) :
    h.point (p.add off) = g.point (q.add off2) := by
  unfold Heap.point
  have e0 := hl 0 (by omega)
  have e1 := hl 1 (by omega)
  have e2 := hl 2 (by omega)
  rw [ptr_add_add, ptr_add_add, ptr_add_add, ptr_add_add]
  rw [Nat.add_zero, Nat.add_zero] at e0
  rw [e0, e1, e2]

theorem Heap.point_isSome (h : Heap R) (p : Ptr) (off k : Nat) (hr : h.readable p k)
    (hk : off + 3 ≤ k) : ∃ P : Point R, h.point (p.add off) = some P := by
  obtain ⟨x, hx⟩ := Option.isSome_iff_exists.mp (hr off (by omega))
  obtain ⟨y, hy⟩ := Option.isSome_iff_exists.mp (hr (off + 1) (by omega))
  obtain ⟨z, hz⟩ := Option.isSome_iff_exists.mp (hr (off + 2) (by omega))
  refine ⟨(x, y, z), ?_⟩
  unfold Heap.point
  rw [ptr_add_add, ptr_add_add, hx, hy, hz]
  rfl

theorem Heap.load_none_of_length (h : Heap R) (p : Ptr) (cs : List (Option R))
    (hc : h.blocks[p.block]? = some (some cs)) (hl : cs.length ≤ p.off) :
    h.load p = none := by
  rw [Heap.load_of_cells hc, List.getElem?_eq_none hl]
  rfl

theorem Heap.point_of_loads (h : Heap R) (p : Ptr) (off : Nat) (x y z : R)
    (hx : h.load (p.add off) = some x) (hy : h.load (p.add (off + 1)) = some y)
    (hz : h.load (p.add (off + 2)) = some z) : h.point (p.add off) = some (x, y, z) := by
  unfold Heap.point
  rw [ptr_add_add, ptr_add_add, hx, hy, hz]
  rfl

theorem Heap.point_none (h : Heap R) (p : Ptr) (hn : h.load p = none) : h.point p = none := by
  unfold Heap.point
  rw [hn]; rfl

/-- The value of `get_dispersion` when the six sites can be read. -/
theorem get_dispersion_eq [Zero R] [Add R] (x6 : X6 R) (m : Coeffs R) (h : Heap R)
    (p1 p2 : Ptr) (A B1 B2 D E1 E2 : Point R)
    (hA : h.point (p1.add 0) = some A) (hB1 : h.point (p1.add 3) = some B1)
    (hB2 : h.point (p1.add 6) = some B2) (hD : h.point (p2.add 0) = some D)
    (hE1 : h.point (p2.add 3) = some E1) (hE2 : h.point (p2.add 6) = some E2) :
    get_dispersion x6 m h ⟨some p1, some p2⟩ = some
      (0 + x6 m.m_C6_AD m.m_d6_AD m.m_C8 m.m_d8 A D
         + x6 m.m_C6_AE m.m_d6_AE m.m_C8 m.m_d8 A E1
         + x6 m.m_C6_AE m.m_d6_AE m.m_C8 m.m_d8 A E2
         + x6 m.m_C6_BD m.m_d6_BD m.m_C8 m.m_d8 B1 D
         + x6 m.m_C6_BE m.m_d6_BE m.m_C8 m.m_d8 B1 E1
         + x6 m.m_C6_BE m.m_d6_BE m.m_C8 m.m_d8 B1 E2
         + x6 m.m_C6_BD m.m_d6_BD m.m_C8 m.m_d8 B2 D
         + x6 m.m_C6_BE m.m_d6_BE m.m_C8 m.m_d8 B2 E1
         + x6 m.m_C6_BE m.m_d6_BE m.m_C8 m.m_d8 B2 E2, h) := by
  simp only [get_dispersion, call_x6, hA, hB1, hB2, hD, hE1, hE2, Option.bind_eq_bind,
    Option.some_bind, Option.pure_def]

/-- The call is undefined when one of the six sites cannot be read. -/
theorem get_dispersion_none [Zero R] [Add R] (x6 : X6 R) (m : Coeffs R) (h : Heap R)
    (p1 p2 : Ptr)
    (hn : h.point (p1.add 0) = none ∨ h.point (p1.add 3) = none ∨ h.point (p1.add 6) = none
      ∨ h.point (p2.add 0) = none ∨ h.point (p2.add 3) = none ∨ h.point (p2.add 6) = none) :
    get_dispersion x6 m h ⟨some p1, some p2⟩ = none := by
  simp only [get_dispersion, call_x6, Option.bind_eq_bind, Option.some_bind, Option.pure_def]
  rcases hn with hn | hn | hn | hn | hn | hn <;>
    · rw [hn]
      cases h.point (p1.add 0) <;> cases h.point (p1.add 3) <;> cases h.point (p1.add 6) <;>
      cases h.point (p2.add 0) <;> cases h.point (p2.add 3) <;> cases h.point (p2.add 6) <;>
      rfl

/-- The value depends only on the six sites. -/
theorem get_dispersion_congr [Zero R] [Add R] (x6 : X6 R) (m : Coeffs R) (h g : Heap R)
    (p1 p2 q1 q2 : Ptr)
    (e1 : ∀ off, off = 0 ∨ off = 3 ∨ off = 6 → h.point (p1.add off) = g.point (q1.add off))
    (e2 : ∀ off, off = 0 ∨ off = 3 ∨ off = 6 → h.point (p2.add off) = g.point (q2.add off)) :
    (get_dispersion x6 m h ⟨some p1, some p2⟩).map Prod.fst
      = (get_dispersion x6 m g ⟨some q1, some q2⟩).map Prod.fst := by
  have a0 := e1 0 (by simp)
  have a3 := e1 3 (by simp)
  have a6 := e1 6 (by simp)
  have b0 := e2 0 (by simp)
  have b3 := e2 3 (by simp)
  have b6 := e2 6 (by simp)
  cases hA : g.point (q1.add 0) with
  | none => rw [get_dispersion_none x6 m g q1 q2 (by simp [hA]),
      get_dispersion_none x6 m h p1 p2 (by simp [a0, hA])]
  | some A =>
  cases hB1 : g.point (q1.add 3) with
  | none => rw [get_dispersion_none x6 m g q1 q2 (by simp [hB1]),
      get_dispersion_none x6 m h p1 p2 (by simp [a3, hB1])]
  | some B1 =>
  cases hB2 : g.point (q1.add 6) with
  | none => rw [get_dispersion_none x6 m g q1 q2 (by simp [hB2]),
      get_dispersion_none x6 m h p1 p2 (by simp [a6, hB2])]
  | some B2 =>
  cases hD : g.point (q2.add 0) with
  | none => rw [get_dispersion_none x6 m g q1 q2 (by simp [hD]),
      get_dispersion_none x6 m h p1 p2 (by simp [b0, hD])]
  | some D =>
  cases hE1 : g.point (q2.add 3) with
  | none => rw [get_dispersion_none x6 m g q1 q2 (by simp [hE1]),
      get_dispersion_none x6 m h p1 p2 (by simp [b3, hE1])]
  | some E1 =>
  cases hE2 : g.point (q2.add 6) with
  | none => rw [get_dispersion_none x6 m g q1 q2 (by simp [hE2]),
      get_dispersion_none x6 m h p1 p2 (by simp [b6, hE2])]
  | some E2 =>
    rw [get_dispersion_eq x6 m g q1 q2 A B1 B2 D E1 E2 hA hB1 hB2 hD hE1 hE2,
      get_dispersion_eq x6 m h p1 p2 A B1 B2 D E1 E2 (a0.trans hA) (a3.trans hB1)
        (a6.trans hB2) (b0.trans hD) (b3.trans hE1) (b6.trans hE2)]
    rfl

theorem Heap.load_isSome_cells {h : Heap R} {p : Ptr} (hp : (h.load p).isSome = true) :
    ∃ cs, h.blocks[p.block]? = some (some cs) ∧ p.off < cs.length := by
  cases hb : h.blocks[p.block]? with
  | none =>
    have hl : h.load p = none := by unfold Heap.load Heap.cells; rw [hb]; rfl
    rw [hl] at hp; cases hp
  | some b =>
    cases b with
    | none =>
      have hl : h.load p = none := by unfold Heap.load Heap.cells; rw [hb]; rfl
      rw [hl] at hp; cases hp
    | some cs =>
      refine ⟨cs, rfl, ?_⟩
      rw [Heap.load_of_cells hb] at hp
      by_contra hlt
      rw [List.getElem?_eq_none (Nat.le_of_not_lt hlt)] at hp
      cases hp

/-- The product `3 * n` does not wrap when an array of the heap holds `3 * n` doubles. -/
theorem size_t_mul_eq {h : Heap R} {c : Ptr} {n : Nat} (ha : h.addressable)
    (hr : h.readable c (3 * n)) : size_t_mul 3 n = 3 * n := by
  unfold size_t_mul
  apply Nat.mod_eq_of_lt
  by_cases hn : n = 0
  · subst hn; decide
  · obtain ⟨cs, hcs, hlt⟩ := Heap.load_isSome_cells (hr (3 * n - 1) (by omega))
    have hmem : some cs ∈ h.blocks := List.getElem?_mem hcs
    have hfit : cs.length < SIZE_RANGE := ha _ hmem
    have : (c.add (3 * n - 1)).off = c.off + (3 * n - 1) := rfl
    omega

theorem ctor_eq_of_addressable (h : Heap R) (c1 c2 : Ptr) (n1 n2 : Nat) (ha : h.addressable)
    (hr1 : h.readable c1 (3 * n1)) (hr2 : h.readable c2 (3 * n2)) :
    ctor h c1 c2 n1 n2 = some
      (⟨h.blocks ++ [some (h.read_array c1 (3 * n1)), some (h.read_array c2 (3 * n2))]⟩,
        ⟨some ⟨h.blocks.length, 0⟩, some ⟨h.blocks.length + 1, 0⟩⟩) := by
  have e1 := size_t_mul_eq ha hr1
  have e2 := size_t_mul_eq ha hr2
  have := ctor_eq h c1 c2 n1 n2 (by rw [e1]; exact hr1) (by rw [e2]; exact hr2)
  rw [e1, e2] at this
  exact this

/-- A site of the first buffer after construction is the site of the first array. -/
theorem point_xyz1 (h : Heap R) (c1 c2 : Ptr) (k1 k2 off : Nat) (hk : off + 3 ≤ k1) :
    Heap.point ⟨h.blocks ++ [some (h.read_array c1 k1), some (h.read_array c2 k2)]⟩
      ((⟨h.blocks.length, 0⟩ : Ptr).add off) = h.point (c1.add off) := by
  apply Heap.point_congr
  intro i hi
  rw [load_xyz1, if_pos (by omega)]

/-- A site of the second buffer after construction is the site of the second array. -/
theorem point_xyz2 (h : Heap R) (c1 c2 : Ptr) (k1 k2 off : Nat) (hk : off + 3 ≤ k2) :
    Heap.point ⟨h.blocks ++ [some (h.read_array c1 k1), some (h.read_array c2 k2)]⟩
      ((⟨h.blocks.length + 1, 0⟩ : Ptr).add off) = h.point (c2.add off) := by
  apply Heap.point_congr
  intro i hi
  rw [load_xyz2, if_pos (by omega)]

theorem Heap.cells_new_fst (h : Heap R) (B1 B2 : List (Option R)) (i : Nat) :
    Heap.cells ⟨h.blocks ++ [some B1, some B2]⟩ ⟨h.blocks.length, i⟩ = some B1 := by
  show ((h.blocks ++ [some B1, some B2])[h.blocks.length]?).join = some B1
  rw [List.getElem?_append_right (Nat.le_refl _), Nat.sub_self]
  rfl

theorem Heap.cells_new_snd (h : Heap R) (B1 B2 : List (Option R)) (i : Nat) :
    Heap.cells ⟨h.blocks ++ [some B1, some B2]⟩ ⟨h.blocks.length + 1, i⟩ = some B2 := by
  show ((h.blocks ++ [some B1, some B2])[h.blocks.length + 1]?).join = some B2
  rw [List.getElem?_append_right (by omega), Nat.add_sub_cancel_left]
  rfl

/-- The value of construction followed by `get_dispersion`. -/
theorem construct_and_get_eq [Zero R] [Add R] (x6 : X6 R) (m : Coeffs R) (h : Heap R)
    (c1 c2 : Ptr) (n1 n2 : Nat) (ha : h.addressable) (hn1 : 3 ≤ n1) (hn2 : 3 ≤ n2)
    (hr1 : h.readable c1 (3 * n1)) (hr2 : h.readable c2 (3 * n2))
    (A B1 B2 D E1 E2 : Point R)
    (hA : h.point (c1.add 0) = some A) (hB1 : h.point (c1.add 3) = some B1)
    (hB2 : h.point (c1.add 6) = some B2) (hD : h.point (c2.add 0) = some D)
    (hE1 : h.point (c2.add 3) = some E1) (hE2 : h.point (c2.add 6) = some E2) :
    construct_and_get x6 m h c1 c2 n1 n2 = some
      (0 + x6 m.m_C6_AD m.m_d6_AD m.m_C8 m.m_d8 A D
         + x6 m.m_C6_AE m.m_d6_AE m.m_C8 m.m_d8 A E1
         + x6 m.m_C6_AE m.m_d6_AE m.m_C8 m.m_d8 A E2
         + x6 m.m_C6_BD m.m_d6_BD m.m_C8 m.m_d8 B1 D
         + x6 m.m_C6_BE m.m_d6_BE m.m_C8 m.m_d8 B1 E1
         + x6 m.m_C6_BE m.m_d6_BE m.m_C8 m.m_d8 B1 E2
         + x6 m.m_C6_BD m.m_d6_BD m.m_C8 m.m_d8 B2 D
         + x6 m.m_C6_BE m.m_d6_BE m.m_C8 m.m_d8 B2 E1
         + x6 m.m_C6_BE m.m_d6_BE m.m_C8 m.m_d8 B2 E2) := by
  unfold construct_and_get
  rw [ctor_eq_of_addressable h c1 c2 n1 n2 ha hr1 hr2]
  simp only
  rw [get_dispersion_eq x6 m _ _ _ A B1 B2 D E1 E2
    ((point_xyz1 h c1 c2 _ _ 0 (by omega)).trans hA)
    ((point_xyz1 h c1 c2 _ _ 3 (by omega)).trans hB1)
    ((point_xyz1 h c1 c2 _ _ 6 (by omega)).trans hB2)
    ((point_xyz2 h c1 c2 _ _ 0 (by omega)).trans hD)
    ((point_xyz2 h c1 c2 _ _ 3 (by omega)).trans hE1)
    ((point_xyz2 h c1 c2 _ _ 6 (by omega)).trans hE2)]
  rfl

/-- What `get_dispersion` returned, when it returned. -/
theorem get_dispersion_inv [Zero R] [Add R] (x6 : X6 R) (m : Coeffs R) (h : Heap R)
    (self : MBFit.x2b_disp) (r : R × Heap R) (hr : get_dispersion x6 m h self = some r) :
    ∃ (p1 p2 : Ptr) (A B1 B2 D E1 E2 : Point R), self = ⟨some p1, some p2⟩ ∧
      h.point (p1.add 0) = some A ∧ h.point (p1.add 3) = some B1 ∧
      h.point (p1.add 6) = some B2 ∧ h.point (p2.add 0) = some D ∧
      h.point (p2.add 3) = some E1 ∧ h.point (p2.add 6) = some E2 ∧ r.2 = h := by
  obtain ⟨x1, x2⟩ := self
  cases x1 with
  | none =>
    have hn : get_dispersion x6 m h ⟨none, x2⟩ = none := rfl
    rw [hn] at hr; cases hr
  | some p1 =>
  cases x2 with
  | none =>
    have hn : get_dispersion x6 m h ⟨some p1, none⟩ = none := rfl
    rw [hn] at hr; cases hr
  | some p2 =>
  cases hA : h.point (p1.add 0) with
  | none => rw [get_dispersion_none x6 m h p1 p2 (by simp [hA])] at hr; cases hr
  | some A =>
  cases hB1 : h.point (p1.add 3) with
  | none => rw [get_dispersion_none x6 m h p1 p2 (by simp [hB1])] at hr; cases hr
  | some B1 =>
  cases hB2 : h.point (p1.add 6) with
  | none => rw [get_dispersion_none x6 m h p1 p2 (by simp [hB2])] at hr; cases hr
  | some B2 =>
  cases hD : h.point (p2.add 0) with
  | none => rw [get_dispersion_none x6 m h p1 p2 (by simp [hD])] at hr; cases hr
  | some D =>
  cases hE1 : h.point (p2.add 3) with
  | none => rw [get_dispersion_none x6 m h p1 p2 (by simp [hE1])] at hr; cases hr
  | some E1 =>
  cases hE2 : h.point (p2.add 6) with
  | none => rw [get_dispersion_none x6 m h p1 p2 (by simp [hE2])] at hr; cases hr
  | some E2 =>
    rw [get_dispersion_eq x6 m h p1 p2 A B1 B2 D E1 E2 hA hB1 hB2 hD hE1 hE2] at hr
    cases hr
    exact ⟨p1, p2, A, B1, B2, D, E1, E2, rfl, hA, hB1, hB2, hD, hE1, hE2, rfl⟩

theorem Heap.store_blocks {h h1 : Heap R} {p : Ptr} {v : R} (hs : h.store p v = some h1) :
    h1.blocks.length = h.blocks.length ∧
      ∀ b, b ≠ p.block → h1.blocks[b]? = h.blocks[b]? := by
  unfold Heap.store at hs
  cases hc : h.cells p with
  | none => rw [hc] at hs; cases hs
  | some cs =>
    rw [hc] at hs
    simp only at hs
    split at hs
    · cases hs
      refine ⟨by simp, ?_⟩
      intro b hb
      simp only
      rw [List.getElem?_set_ne (Ne.symm hb)]
    · cases hs

theorem std_copy_length (k : Nat) : ∀ (g g1 : Heap R) (first d : Ptr),
    std_copy g first k d = some g1 → g1.blocks.length = g.blocks.length := by
  induction k with
  | zero =>
    intro g g1 first d hc
    simp only [std_copy] at hc
    cases hc; rfl
  | succ k ih =>
    intro g g1 first d hc
    simp only [std_copy] at hc
    cases hl : g.load first with
    | none => rw [hl] at hc; cases hc
    | some v =>
      rw [hl] at hc
      simp only at hc
      cases hst : g.store d v with
      | none => rw [hst] at hc; cases hc
      | some g2 =>
        rw [hst] at hc
        simp only at hc
        rw [ih g2 g1 _ _ hc, (Heap.store_blocks hst).1]

/-- The object that the constructor returns: its buffers are the two blocks
allocated after everything that was in the heap. -/
theorem ctor_shape (h h1 : Heap R) (c1 c2 : Ptr) (n1 n2 : Nat) (self : MBFit.x2b_disp)
    (hc : ctor h c1 c2 n1 n2 = some (h1, self)) :
    self = ⟨some ⟨h.blocks.length, 0⟩, some ⟨h.blocks.length + 1, 0⟩⟩ ∧
      h1.blocks.length = h.blocks.length + 2 := by
  unfold ctor Heap.new_array at hc
  simp only [List.length_append, List.length_singleton] at hc
  split at hc
  · rename_i h3 e3
    split at hc
    · rename_i h4 e4
      cases hc
      refine ⟨rfl, ?_⟩
      rw [std_copy_length _ _ _ _ _ e4, std_copy_length _ _ _ _ _ e3]
      simp
    · cases hc
  · cases hc

theorem Heap.stores_blocks (ws : List (Ptr × R)) : ∀ (h h1 : Heap R) (L : Nat),
    (∀ w ∈ ws, w.1.block < L) → h.stores ws = some h1 →
    ∀ b, L ≤ b → h1.blocks[b]? = h.blocks[b]? := by
  induction ws with
  | nil =>
    intro h h1 L _ hs b _
    simp only [Heap.stores] at hs
    cases hs; rfl
  | cons w ws ih =>
    intro h h1 L hw hs b hb
    simp only [Heap.stores] at hs
    cases hst : h.store w.1 w.2 with
    | none => rw [hst] at hs; cases hs
    | some h2 =>
      rw [hst] at hs
      simp only at hs
      have hwb : w.1.block < L := hw w (List.mem_cons_self _ _)
      rw [ih h2 h1 L (fun w1 hw1 => hw w1 (List.mem_cons_of_mem _ hw1)) hs b hb]
      exact (Heap.store_blocks hst).2 b (by omega)

theorem Heap.load_eq_of_block {h g : Heap R} {p : Ptr}
    (hb : g.blocks[p.block]? = h.blocks[p.block]?) : g.load p = h.load p := by
  unfold Heap.load Heap.cells
  rw [hb]

/-! ## Lemmas on the primitive on pointers -/

theorem Heap.load_eq_read (h : Heap R) (p : Ptr) : h.load p = (h.read p).toOption := by
  unfold Heap.load Heap.read
  cases h.cells p with
  | none => rfl
  | some cs =>
    simp only
    cases hc : cs[p.off]? with
    | none => rfl
    | some c =>
      cases c with
      | none => rfl
      | some v => rfl

theorem Heap.read_of_load {h : Heap R} {p : Ptr} {v : R} (hl : h.load p = some v) :
    h.read p = .ok v := by
  rw [Heap.load_eq_read] at hl
  cases hr : h.read p with
  | error e => rw [hr] at hl; cases hl
  | ok w => rw [hr] at hl; cases hl; rfl

theorem Heap.point_eq_read_point (h : Heap R) (p : Ptr) :
    h.point p = (h.read_point p).toOption := by
  unfold Heap.point Heap.read_point
  rw [Heap.load_eq_read, Heap.load_eq_read, Heap.load_eq_read]
  cases h.read p with
  | error e => rfl
  | ok x =>
    cases h.read (p.add 1) with
    | error e => rfl
    | ok y =>
      cases h.read (p.add 2) with
      | error e => rfl
      | ok z => rfl

theorem Heap.read_point_of_point {h : Heap R} {p : Ptr} {P : Point R}
    (hp : h.point p = some P) : h.read_point p = .ok P := by
  rw [Heap.point_eq_read_point] at hp
  cases hr : h.read_point p with
  | error e => rw [hr] at hp; cases hp
  | ok w => rw [hr] at hp; cases hp; rfl

theorem Heap.read_point_error {h : Heap R} {p : Ptr} {f : Fault}
    (hp : h.read p = .error f) : h.read_point p = .error f := by
  unfold Heap.read_point
  rw [hp]
  rfl

/-- All six sites readable: the call returns the nine-term sum. -/
theorem get_dispersion_ptr_ok [Zero R] [Add R] (x6 : X6 R) (m : Coeffs R) (h : Heap R)
    (p1 p2 : Ptr) (A B1 B2 D E1 E2 : Point R)
    (hA : h.read_point (p1.add 0) = .ok A) (hB1 : h.read_point (p1.add 3) = .ok B1)
    (hB2 : h.read_point (p1.add 6) = .ok B2) (hD : h.read_point (p2.add 0) = .ok D)
    (hE1 : h.read_point (p2.add 3) = .ok E1) (hE2 : h.read_point (p2.add 6) = .ok E2) :
    get_dispersion_ptr (X6.deref x6) m h ⟨some p1, some p2⟩ = .ok
      (0 + x6 m.m_C6_AD m.m_d6_AD m.m_C8 m.m_d8 A D
         + x6 m.m_C6_AE m.m_d6_AE m.m_C8 m.m_d8 A E1
         + x6 m.m_C6_AE m.m_d6_AE m.m_C8 m.m_d8 A E2
         + x6 m.m_C6_BD m.m_d6_BD m.m_C8 m.m_d8 B1 D
         + x6 m.m_C6_BE m.m_d6_BE m.m_C8 m.m_d8 B1 E1
         + x6 m.m_C6_BE m.m_d6_BE m.m_C8 m.m_d8 B1 E2
         + x6 m.m_C6_BD m.m_d6_BD m.m_C8 m.m_d8 B2 D
         + x6 m.m_C6_BE m.m_d6_BE m.m_C8 m.m_d8 B2 E1
         + x6 m.m_C6_BE m.m_d6_BE m.m_C8 m.m_d8 B2 E2, h) := by
  simp only [get_dispersion_ptr, member, X6.deref, bind, Except.bind, pure, Except.pure, hA, hB1, hB2, hD, hE1, hE2]

/-- A stub that reads nothing returns whatever the buffers hold or lack. -/
theorem get_dispersion_ptr_const [Zero R] [Add R] (c : R) (m : Coeffs R) (h : Heap R)
    (p1 p2 : Ptr) :
    get_dispersion_ptr (X6ptr.const c) m h ⟨some p1, some p2⟩
      = .ok (0 + c + c + c + c + c + c + c + c + c, h) := rfl

theorem size_t_mul_nowrap {n : Nat} (hw : 3 * n < SIZE_RANGE) : size_t_mul 3 n = 3 * n :=
  Nat.mod_eq_of_lt hw

theorem ctor_eq_of_nowrap (h : Heap R) (c1 c2 : Ptr) (n1 n2 : Nat)
    (hw1 : 3 * n1 < SIZE_RANGE) (hw2 : 3 * n2 < SIZE_RANGE)
    (hr1 : h.readable c1 (3 * n1)) (hr2 : h.readable c2 (3 * n2)) :
    ctor h c1 c2 n1 n2 = some
      (⟨h.blocks ++ [some (h.read_array c1 (3 * n1)), some (h.read_array c2 (3 * n2))]⟩,
        ⟨some ⟨h.blocks.length, 0⟩, some ⟨h.blocks.length + 1, 0⟩⟩) := by
  have e1 := size_t_mul_nowrap hw1
  have e2 := size_t_mul_nowrap hw2
  have := ctor_eq h c1 c2 n1 n2 (by rw [e1]; exact hr1) (by rw [e2]; exact hr2)
  rw [e1, e2] at this
  exact this

/-- The value of construction followed by `get_dispersion` when the products do
not wrap. -/
theorem construct_and_get_eq_nowrap [Zero R] [Add R] (x6 : X6 R) (m : Coeffs R) (h : Heap R)
    (c1 c2 : Ptr) (n1 n2 : Nat) (hw1 : 3 * n1 < SIZE_RANGE) (hw2 : 3 * n2 < SIZE_RANGE)
    (hn1 : 3 ≤ n1) (hn2 : 3 ≤ n2)
    (hr1 : h.readable c1 (3 * n1)) (hr2 : h.readable c2 (3 * n2))
    (A B1 B2 D E1 E2 : Point R)
    (hA : h.point (c1.add 0) = some A) (hB1 : h.point (c1.add 3) = some B1)
    (hB2 : h.point (c1.add 6) = some B2) (hD : h.point (c2.add 0) = some D)
    (hE1 : h.point (c2.add 3) = some E1) (hE2 : h.point (c2.add 6) = some E2) :
    construct_and_get x6 m h c1 c2 n1 n2 = some
      (0 + x6 m.m_C6_AD m.m_d6_AD m.m_C8 m.m_d8 A D
         + x6 m.m_C6_AE m.m_d6_AE m.m_C8 m.m_d8 A E1
         + x6 m.m_C6_AE m.m_d6_AE m.m_C8 m.m_d8 A E2
         + x6 m.m_C6_BD m.m_d6_BD m.m_C8 m.m_d8 B1 D
         + x6 m.m_C6_BE m.m_d6_BE m.m_C8 m.m_d8 B1 E1
         + x6 m.m_C6_BE m.m_d6_BE m.m_C8 m.m_d8 B1 E2
         + x6 m.m_C6_BD m.m_d6_BD m.m_C8 m.m_d8 B2 D
         + x6 m.m_C6_BE m.m_d6_BE m.m_C8 m.m_d8 B2 E1
         + x6 m.m_C6_BE m.m_d6_BE m.m_C8 m.m_d8 B2 E2) := by
  unfold construct_and_get
  rw [ctor_eq_of_nowrap h c1 c2 n1 n2 hw1 hw2 hr1 hr2]
  simp only
  rw [get_dispersion_eq x6 m _ _ _ A B1 B2 D E1 E2
    ((point_xyz1 h c1 c2 _ _ 0 (by omega)).trans hA)
    ((point_xyz1 h c1 c2 _ _ 3 (by omega)).trans hB1)
    ((point_xyz1 h c1 c2 _ _ 6 (by omega)).trans hB2)
    ((point_xyz2 h c1 c2 _ _ 0 (by omega)).trans hD)
    ((point_xyz2 h c1 c2 _ _ 3 (by omega)).trans hE1)
    ((point_xyz2 h c1 c2 _ _ 6 (by omega)).trans hE2)]
  rfl

/-! ## The claims -/

/-- C1: for every `x6` and every pair of stored buffers holding at least three
sites each, `get_dispersion` returns `0.0` plus the nine `x6` terms accumulated
from left to right in the order (A,D), (A,E1), (A,E2), (B1,D), (B1,E1), (B1,E2),
(B2,D), (B2,E1), (B2,E2), where A, B1, B2 are the points at element offsets
0, 3, 6 of the first buffer and D, E1, E2 those of the second.  Each term takes
its `(C6, d6)` from the row of the coefficient table for its pair and the shared
`(C8, d8)`, and each of the nine ordered site pairs occurs exactly once. -/
theorem C1_get_dispersion_nine_terms [Zero R] [Add R] (x6 : X6 R) (m : Coeffs R)
    (h : Heap R) (p1 p2 : Ptr) (h1 : h.readable p1 9) (h2 : h.readable p2 9) :
    ∃ A B1 B2 D E1 E2 : Point R,
      h.point (p1.add 0) = some A ∧ h.point (p1.add 3) = some B1 ∧
      h.point (p1.add 6) = some B2 ∧ h.point (p2.add 0) = some D ∧
      h.point (p2.add 3) = some E1 ∧ h.point (p2.add 6) = some E2 ∧
      get_dispersion x6 m h ⟨some p1, some p2⟩ = some
        (0 + x6 m.m_C6_AD m.m_d6_AD m.m_C8 m.m_d8 A D
           + x6 m.m_C6_AE m.m_d6_AE m.m_C8 m.m_d8 A E1
           + x6 m.m_C6_AE m.m_d6_AE m.m_C8 m.m_d8 A E2
           + x6 m.m_C6_BD m.m_d6_BD m.m_C8 m.m_d8 B1 D
           + x6 m.m_C6_BE m.m_d6_BE m.m_C8 m.m_d8 B1 E1
           + x6 m.m_C6_BE m.m_d6_BE m.m_C8 m.m_d8 B1 E2
           + x6 m.m_C6_BD m.m_d6_BD m.m_C8 m.m_d8 B2 D
           + x6 m.m_C6_BE m.m_d6_BE m.m_C8 m.m_d8 B2 E1
           + x6 m.m_C6_BE m.m_d6_BE m.m_C8 m.m_d8 B2 E2, h) ∧
      get_dispersion x6 m h ⟨some p1, some p2⟩ = some
        (table_sum x6 m (sites A B1 B2) (sites D E1 E2), h) ∧
      (∀ ij : Fin 3 × Fin 3, (pair_table.map Prod.snd).count ij = 1) ∧
      (∀ t ∈ pair_table, t.1 = table_row t.2.1 t.2.2) := by
  obtain ⟨A, hA⟩ := Heap.point_isSome h p1 0 9 h1 (by omega)
  obtain ⟨B1, hB1⟩ := Heap.point_isSome h p1 3 9 h1 (by omega)
  obtain ⟨B2, hB2⟩ := Heap.point_isSome h p1 6 9 h1 (by omega)
  obtain ⟨D, hD⟩ := Heap.point_isSome h p2 0 9 h2 (by omega)
  obtain ⟨E1, hE1⟩ := Heap.point_isSome h p2 3 9 h2 (by omega)
  obtain ⟨E2, hE2⟩ := Heap.point_isSome h p2 6 9 h2 (by omega)
  have hv := get_dispersion_eq x6 m h p1 p2 A B1 B2 D E1 E2 hA hB1 hB2 hD hE1 hE2
  refine ⟨A, B1, B2, D, E1, E2, hA, hB1, hB2, hD, hE1, hE2, hv, ?_, by decide, by decide⟩
  rw [hv]
  rfl

/-- Witness of C1 on the integer example: the hypotheses hold and the sum is 10593. -/
theorem C1_get_dispersion_nine_terms_witness :
    example_heap.readable ⟨0, 1⟩ 9 ∧ example_heap.readable ⟨1, 0⟩ 9 ∧
    (get_dispersion example_x6 example_coeffs example_heap ⟨some ⟨0, 1⟩, some ⟨1, 0⟩⟩).map
      Prod.fst = some 10593 := by
  refine ⟨by decide, by decide, ?_⟩
  obtain ⟨A, B1, B2, D, E1, E2, hA, hB1, hB2, hD, hE1, hE2, hv, _⟩ :=
    C1_get_dispersion_nine_terms example_x6 example_coeffs example_heap ⟨0, 1⟩ ⟨1, 0⟩
      (by decide) (by decide)
  rw [hv]
  have a : example_heap.point (Ptr.add ⟨0, 1⟩ 0) = some (2, 3, 4) := by decide
  have b1 : example_heap.point (Ptr.add ⟨0, 1⟩ 3) = some (5, 6, 7) := by decide
  have b2 : example_heap.point (Ptr.add ⟨0, 1⟩ 6) = some (8, 9, 10) := by decide
  have d : example_heap.point (Ptr.add ⟨1, 0⟩ 0) = some (11, 12, 13) := by decide
  have e1 : example_heap.point (Ptr.add ⟨1, 0⟩ 3) = some (14, 15, 16) := by decide
  have e2 : example_heap.point (Ptr.add ⟨1, 0⟩ 6) = some (17, 18, 19) := by decide
  cases hA.symm.trans a
  cases hB1.symm.trans b1
  cases hB2.symm.trans b2
  cases hD.symm.trans d
  cases hE1.symm.trans e1
  cases hE2.symm.trans e2
  decide

/-- C2: for every pair of stored buffers holding at least three sites each, with
`x6` replaced by a stub that returns `1.0` for every argument `get_dispersion`
returns exactly `9.0`; for a stub that returns a constant `c` it returns `0.0`
with `c` added nine times. -/
theorem C2_constant_stub (m : Coeffs Double) (h : Heap Double) (p1 p2 : Ptr)
    (h1 : h.readable p1 9) (h2 : h.readable p2 9) :
    get_dispersion (fun _ _ _ _ _ _ => Double.ofInt 1) m h ⟨some p1, some p2⟩
      = some (Double.ofInt 9, h) ∧
    ∀ c : Double, get_dispersion (fun _ _ _ _ _ _ => c) m h ⟨some p1, some p2⟩
      = some (0 + c + c + c + c + c + c + c + c + c, h) := by
  obtain ⟨A, hA⟩ := Heap.point_isSome h p1 0 9 h1 (by omega)
  obtain ⟨B1, hB1⟩ := Heap.point_isSome h p1 3 9 h1 (by omega)
  obtain ⟨B2, hB2⟩ := Heap.point_isSome h p1 6 9 h1 (by omega)
  obtain ⟨D, hD⟩ := Heap.point_isSome h p2 0 9 h2 (by omega)
  obtain ⟨E1, hE1⟩ := Heap.point_isSome h p2 3 9 h2 (by omega)
  obtain ⟨E2, hE2⟩ := Heap.point_isSome h p2 6 9 h2 (by omega)
  have hv := fun c : Double => get_dispersion_eq (fun _ _ _ _ _ _ => c) m h p1 p2
    A B1 B2 D E1 E2 hA hB1 hB2 hD hE1 hE2
  refine ⟨?_, hv⟩
  rw [hv]
  have e : (0 : Double) + Double.ofInt 1 + Double.ofInt 1 + Double.ofInt 1 + Double.ofInt 1
      + Double.ofInt 1 + Double.ofInt 1 + Double.ofInt 1 + Double.ofInt 1 + Double.ofInt 1
      = Double.ofInt 9 := by decide
  rw [e]

/-- Witness of C2 on the arrays of `heap_E`. -/
theorem C2_constant_stub_witness :
    heap_E.readable ⟨0, 0⟩ 9 ∧ heap_E.readable ⟨1, 0⟩ 9 ∧
    get_dispersion (fun _ _ _ _ _ _ => Double.ofInt 1) zero_coeffs heap_E
      ⟨some ⟨0, 0⟩, some ⟨1, 0⟩⟩ = some (Double.fin false (9 * 2 ^ 49) (-49), heap_E) :=
  ⟨by decide, by decide,
    (C2_constant_stub zero_coeffs heap_E ⟨0, 0⟩ ⟨1, 0⟩ (by decide) (by decide)).1⟩

/-- C3 (as stated, refuted): with a stub `x6` that returns the first coordinate
of its B-side point and the E sites `(2^53,0,0)` and `(-2^53,0,0)`, the value
is `0.0` before the two E sites are exchanged and `3.0` after. -/
theorem C3_exchange_E_counterexample :
    heap_E.addressable ∧ heap_E_exchanged.addressable ∧
    heap_E.readable ⟨0, 0⟩ (3 * 3) ∧ heap_E.readable ⟨1, 0⟩ (3 * 3) ∧
    heap_E_exchanged.readable ⟨0, 0⟩ (3 * 3) ∧ heap_E_exchanged.readable ⟨1, 0⟩ (3 * 3) ∧
    same_sites heap_E heap_E_exchanged ⟨0, 0⟩ ∧
    exchanged_sites heap_E heap_E_exchanged ⟨1, 0⟩ ∧
    construct_and_get stub_x6_second zero_coeffs heap_E ⟨0, 0⟩ ⟨1, 0⟩ 3 3
      = some (Double.ofInt 0) ∧
    construct_and_get stub_x6_second zero_coeffs heap_E_exchanged ⟨0, 0⟩ ⟨1, 0⟩ 3 3
      = some (Double.ofInt 3) ∧
    construct_and_get stub_x6_second zero_coeffs heap_E_exchanged ⟨0, 0⟩ ⟨1, 0⟩ 3 3
      ≠ construct_and_get stub_x6_second zero_coeffs heap_E ⟨0, 0⟩ ⟨1, 0⟩ 3 3 := by
  decide

/-- C3 (amended): for every `x6` and every pair of input arrays with at least
three sites each, exchanging the two E sites of the second array before
construction exchanges the 2nd and 3rd, the 5th and 6th and the 8th and 9th
term of the accumulation; the two results are identical whenever adding two
terms to the accumulator in either order gives the same value
(`s + a + b = s + b + a`). -/
theorem C3_exchange_E_sites [Zero R] [Add R] (x6 : X6 R) (m : Coeffs R) (h hs : Heap R)
    (c1 c2 : Ptr) (n1 n2 : Nat) (ha : h.addressable) (has : hs.addressable)
    (hn1 : 3 ≤ n1) (hn2 : 3 ≤ n2)
    (hr1 : h.readable c1 (3 * n1)) (hr2 : h.readable c2 (3 * n2))
    (hs1 : hs.readable c1 (3 * n1)) (hs2 : hs.readable c2 (3 * n2))
    (e1 : same_sites h hs c1) (e2 : exchanged_sites h hs c2) :
    ∃ A B1 B2 D E1 E2 : Point R,
      h.point (c1.add 0) = some A ∧ h.point (c1.add 3) = some B1 ∧
      h.point (c1.add 6) = some B2 ∧ h.point (c2.add 0) = some D ∧
      h.point (c2.add 3) = some E1 ∧ h.point (c2.add 6) = some E2 ∧
      construct_and_get x6 m h c1 c2 n1 n2 = some
        (0 + x6 m.m_C6_AD m.m_d6_AD m.m_C8 m.m_d8 A D
           + x6 m.m_C6_AE m.m_d6_AE m.m_C8 m.m_d8 A E1
           + x6 m.m_C6_AE m.m_d6_AE m.m_C8 m.m_d8 A E2
           + x6 m.m_C6_BD m.m_d6_BD m.m_C8 m.m_d8 B1 D
           + x6 m.m_C6_BE m.m_d6_BE m.m_C8 m.m_d8 B1 E1
           + x6 m.m_C6_BE m.m_d6_BE m.m_C8 m.m_d8 B1 E2
           + x6 m.m_C6_BD m.m_d6_BD m.m_C8 m.m_d8 B2 D
           + x6 m.m_C6_BE m.m_d6_BE m.m_C8 m.m_d8 B2 E1
           + x6 m.m_C6_BE m.m_d6_BE m.m_C8 m.m_d8 B2 E2) ∧
      construct_and_get x6 m hs c1 c2 n1 n2 = some
        (0 + x6 m.m_C6_AD m.m_d6_AD m.m_C8 m.m_d8 A D
           + x6 m.m_C6_AE m.m_d6_AE m.m_C8 m.m_d8 A E2
           + x6 m.m_C6_AE m.m_d6_AE m.m_C8 m.m_d8 A E1
           + x6 m.m_C6_BD m.m_d6_BD m.m_C8 m.m_d8 B1 D
           + x6 m.m_C6_BE m.m_d6_BE m.m_C8 m.m_d8 B1 E2
           + x6 m.m_C6_BE m.m_d6_BE m.m_C8 m.m_d8 B1 E1
           + x6 m.m_C6_BD m.m_d6_BD m.m_C8 m.m_d8 B2 D
           + x6 m.m_C6_BE m.m_d6_BE m.m_C8 m.m_d8 B2 E2
           + x6 m.m_C6_BE m.m_d6_BE m.m_C8 m.m_d8 B2 E1) ∧
      ((∀ s a b : R, s + a + b = s + b + a) →
        construct_and_get x6 m hs c1 c2 n1 n2 = construct_and_get x6 m h c1 c2 n1 n2) := by
  obtain ⟨A, hA⟩ := Heap.point_isSome h c1 0 _ hr1 (by omega)
  obtain ⟨B1, hB1⟩ := Heap.point_isSome h c1 3 _ hr1 (by omega)
  obtain ⟨B2, hB2⟩ := Heap.point_isSome h c1 6 _ hr1 (by omega)
  obtain ⟨D, hD⟩ := Heap.point_isSome h c2 0 _ hr2 (by omega)
  obtain ⟨E1, hE1⟩ := Heap.point_isSome h c2 3 _ hr2 (by omega)
  obtain ⟨E2, hE2⟩ := Heap.point_isSome h c2 6 _ hr2 (by omega)
  have sA : hs.point (c1.add 0) = some A :=
    (Heap.point_congr_off hs h c1 c1 0 0 (fun i hi => e1 (0 + i) (by omega))).trans hA
  have sB1 : hs.point (c1.add 3) = some B1 :=
    (Heap.point_congr_off hs h c1 c1 3 3 (fun i hi => e1 (3 + i) (by omega))).trans hB1
  have sB2 : hs.point (c1.add 6) = some B2 :=
    (Heap.point_congr_off hs h c1 c1 6 6 (fun i hi => e1 (6 + i) (by omega))).trans hB2
  have sD : hs.point (c2.add 0) = some D :=
    (Heap.point_congr_off hs h c2 c2 0 0
      (fun i hi => by rw [Nat.zero_add]; exact e2.1 i hi)).trans hD
  have sE1 : hs.point (c2.add 3) = some E2 :=
    (Heap.point_congr_off hs h c2 c2 3 6 (fun i hi => e2.2.1 i hi)).trans hE2
  have sE2 : hs.point (c2.add 6) = some E1 :=
    (Heap.point_congr_off hs h c2 c2 6 3 (fun i hi => e2.2.2 i hi)).trans hE1
  have v := construct_and_get_eq x6 m h c1 c2 n1 n2 ha hn1 hn2 hr1 hr2 A B1 B2 D E1 E2
    hA hB1 hB2 hD hE1 hE2
  have vs := construct_and_get_eq x6 m hs c1 c2 n1 n2 has hn1 hn2 hs1 hs2 A B1 B2 D E2 E1
    sA sB1 sB2 sD sE1 sE2
  refine ⟨A, B1, B2, D, E1, E2, hA, hB1, hB2, hD, hE1, hE2, v, vs, ?_⟩
  intro hc
  rw [v, vs]
  congr 1
  rw [hc _ (x6 m.m_C6_AE m.m_d6_AE m.m_C8 m.m_d8 A E2),
    hc _ (x6 m.m_C6_BE m.m_d6_BE m.m_C8 m.m_d8 B1 E2),
    hc _ (x6 m.m_C6_BE m.m_d6_BE m.m_C8 m.m_d8 B2 E2)]

/-- Witness of C3 (amended) on the integer example, where addition is exact. -/
theorem C3_exchange_E_sites_witness :
    example_heap.addressable ∧ example_heap_E_exchanged.addressable ∧ 3 ≤ 3 ∧
    example_heap.readable ⟨0, 1⟩ (3 * 3) ∧ example_heap.readable ⟨1, 0⟩ (3 * 3) ∧
    example_heap_E_exchanged.readable ⟨0, 1⟩ (3 * 3) ∧
    example_heap_E_exchanged.readable ⟨1, 0⟩ (3 * 3) ∧
    same_sites example_heap example_heap_E_exchanged ⟨0, 1⟩ ∧
    exchanged_sites example_heap example_heap_E_exchanged ⟨1, 0⟩ ∧
    (∀ s a b : Int, s + a + b = s + b + a) ∧
    construct_and_get example_x6 example_coeffs example_heap_E_exchanged ⟨0, 1⟩ ⟨1, 0⟩ 3 3
      = construct_and_get example_x6 example_coeffs example_heap ⟨0, 1⟩ ⟨1, 0⟩ 3 3 := by
  refine ⟨by decide, by decide, by decide, by decide, by decide, by decide, by decide,
    by decide, by decide, fun s a b => by omega, ?_⟩
  obtain ⟨_, _, _, _, _, _, _, _, _, _, _, _, _, _, hc⟩ :=
    C3_exchange_E_sites example_x6 example_coeffs example_heap example_heap_E_exchanged
      ⟨0, 1⟩ ⟨1, 0⟩ 3 3 (by decide) (by decide) (by decide) (by decide) (by decide)
      (by decide) (by decide) (by decide) (by decide) (by decide)
  exact hc (fun s a b => by omega)

/-- C4 (as stated, refuted): with a stub `x6` that returns the first coordinate
of its A-side point and the B sites `(1,0,0)` and `(2^53,0,0)`, the value is
`3 * 2^53 + 4` before the two B sites are exchanged and `3 * 2^53` after. -/
theorem C4_exchange_B_counterexample :
    heap_B.addressable ∧ heap_B_exchanged.addressable ∧
    heap_B.readable ⟨0, 0⟩ (3 * 3) ∧ heap_B.readable ⟨1, 0⟩ (3 * 3) ∧
    heap_B_exchanged.readable ⟨0, 0⟩ (3 * 3) ∧ heap_B_exchanged.readable ⟨1, 0⟩ (3 * 3) ∧
    exchanged_sites heap_B heap_B_exchanged ⟨0, 0⟩ ∧
    same_sites heap_B heap_B_exchanged ⟨1, 0⟩ ∧
    construct_and_get stub_x6_first zero_coeffs heap_B ⟨0, 0⟩ ⟨1, 0⟩ 3 3
      = some (Double.ofInt (3 * 2 ^ 53 + 4)) ∧
    construct_and_get stub_x6_first zero_coeffs heap_B_exchanged ⟨0, 0⟩ ⟨1, 0⟩ 3 3
      = some (Double.ofInt (3 * 2 ^ 53)) ∧
    construct_and_get stub_x6_first zero_coeffs heap_B_exchanged ⟨0, 0⟩ ⟨1, 0⟩ 3 3
      ≠ construct_and_get stub_x6_first zero_coeffs heap_B ⟨0, 0⟩ ⟨1, 0⟩ 3 3 := by
  decide

/-- C4 (amended): for every `x6` and every pair of input arrays with at least
three sites each, exchanging the two B sites of the first array before
construction exchanges the 4th, 5th, 6th term of the accumulation with the 7th,
8th, 9th; the two results are identical whenever adding two terms to the
accumulator in either order gives the same value (`s + a + b = s + b + a`). -/
theorem C4_exchange_B_sites [Zero R] [Add R] (x6 : X6 R) (m : Coeffs R) (h hs : Heap R)
    (c1 c2 : Ptr) (n1 n2 : Nat) (ha : h.addressable) (has : hs.addressable)
    (hn1 : 3 ≤ n1) (hn2 : 3 ≤ n2)
    (hr1 : h.readable c1 (3 * n1)) (hr2 : h.readable c2 (3 * n2))
    (hs1 : hs.readable c1 (3 * n1)) (hs2 : hs.readable c2 (3 * n2))
    (e1 : exchanged_sites h hs c1) (e2 : same_sites h hs c2) :
    ∃ A B1 B2 D E1 E2 : Point R,
      h.point (c1.add 0) = some A ∧ h.point (c1.add 3) = some B1 ∧
      h.point (c1.add 6) = some B2 ∧ h.point (c2.add 0) = some D ∧
      h.point (c2.add 3) = some E1 ∧ h.point (c2.add 6) = some E2 ∧
      construct_and_get x6 m h c1 c2 n1 n2 = some
        (0 + x6 m.m_C6_AD m.m_d6_AD m.m_C8 m.m_d8 A D
           + x6 m.m_C6_AE m.m_d6_AE m.m_C8 m.m_d8 A E1
           + x6 m.m_C6_AE m.m_d6_AE m.m_C8 m.m_d8 A E2
           + x6 m.m_C6_BD m.m_d6_BD m.m_C8 m.m_d8 B1 D
           + x6 m.m_C6_BE m.m_d6_BE m.m_C8 m.m_d8 B1 E1
           + x6 m.m_C6_BE m.m_d6_BE m.m_C8 m.m_d8 B1 E2
           + x6 m.m_C6_BD m.m_d6_BD m.m_C8 m.m_d8 B2 D
           + x6 m.m_C6_BE m.m_d6_BE m.m_C8 m.m_d8 B2 E1
           + x6 m.m_C6_BE m.m_d6_BE m.m_C8 m.m_d8 B2 E2) ∧
      construct_and_get x6 m hs c1 c2 n1 n2 = some
        (0 + x6 m.m_C6_AD m.m_d6_AD m.m_C8 m.m_d8 A D
           + x6 m.m_C6_AE m.m_d6_AE m.m_C8 m.m_d8 A E1
           + x6 m.m_C6_AE m.m_d6_AE m.m_C8 m.m_d8 A E2
           + x6 m.m_C6_BD m.m_d6_BD m.m_C8 m.m_d8 B2 D
           + x6 m.m_C6_BE m.m_d6_BE m.m_C8 m.m_d8 B2 E1
           + x6 m.m_C6_BE m.m_d6_BE m.m_C8 m.m_d8 B2 E2
           + x6 m.m_C6_BD m.m_d6_BD m.m_C8 m.m_d8 B1 D
           + x6 m.m_C6_BE m.m_d6_BE m.m_C8 m.m_d8 B1 E1
           + x6 m.m_C6_BE m.m_d6_BE m.m_C8 m.m_d8 B1 E2) ∧
      ((∀ s a b : R, s + a + b = s + b + a) →
        construct_and_get x6 m hs c1 c2 n1 n2 = construct_and_get x6 m h c1 c2 n1 n2) := by
  obtain ⟨A, hA⟩ := Heap.point_isSome h c1 0 _ hr1 (by omega)
  obtain ⟨B1, hB1⟩ := Heap.point_isSome h c1 3 _ hr1 (by omega)
  obtain ⟨B2, hB2⟩ := Heap.point_isSome h c1 6 _ hr1 (by omega)
  obtain ⟨D, hD⟩ := Heap.point_isSome h c2 0 _ hr2 (by omega)
  obtain ⟨E1, hE1⟩ := Heap.point_isSome h c2 3 _ hr2 (by omega)
  obtain ⟨E2, hE2⟩ := Heap.point_isSome h c2 6 _ hr2 (by omega)
  have sA : hs.point (c1.add 0) = some A :=
    (Heap.point_congr_off hs h c1 c1 0 0
      (fun i hi => by rw [Nat.zero_add]; exact e1.1 i hi)).trans hA
  have sB1 : hs.point (c1.add 3) = some B2 :=
    (Heap.point_congr_off hs h c1 c1 3 6 (fun i hi => e1.2.1 i hi)).trans hB2
  have sB2 : hs.point (c1.add 6) = some B1 :=
    (Heap.point_congr_off hs h c1 c1 6 3 (fun i hi => e1.2.2 i hi)).trans hB1
  have sD : hs.point (c2.add 0) = some D :=
    (Heap.point_congr_off hs h c2 c2 0 0 (fun i hi => e2 (0 + i) (by omega))).trans hD
  have sE1 : hs.point (c2.add 3) = some E1 :=
    (Heap.point_congr_off hs h c2 c2 3 3 (fun i hi => e2 (3 + i) (by omega))).trans hE1
  have sE2 : hs.point (c2.add 6) = some E2 :=
    (Heap.point_congr_off hs h c2 c2 6 6 (fun i hi => e2 (6 + i) (by omega))).trans hE2
  have v := construct_and_get_eq x6 m h c1 c2 n1 n2 ha hn1 hn2 hr1 hr2 A B1 B2 D E1 E2
    hA hB1 hB2 hD hE1 hE2
  have vs := construct_and_get_eq x6 m hs c1 c2 n1 n2 has hn1 hn2 hs1 hs2 A B2 B1 D E1 E2
    sA sB1 sB2 sD sE1 sE2
  refine ⟨A, B1, B2, D, E1, E2, hA, hB1, hB2, hD, hE1, hE2, v, vs, ?_⟩
  intro hc
  rw [v, vs]
  congr 1
  generalize 0 + x6 m.m_C6_AD m.m_d6_AD m.m_C8 m.m_d8 A D
    + x6 m.m_C6_AE m.m_d6_AE m.m_C8 m.m_d8 A E1
    + x6 m.m_C6_AE m.m_d6_AE m.m_C8 m.m_d8 A E2 = s
  generalize x6 m.m_C6_BD m.m_d6_BD m.m_C8 m.m_d8 B1 D = x1
  generalize x6 m.m_C6_BE m.m_d6_BE m.m_C8 m.m_d8 B1 E1 = x2
  generalize x6 m.m_C6_BE m.m_d6_BE m.m_C8 m.m_d8 B1 E2 = x3
  generalize x6 m.m_C6_BD m.m_d6_BD m.m_C8 m.m_d8 B2 D = y1
  generalize x6 m.m_C6_BE m.m_d6_BE m.m_C8 m.m_d8 B2 E1 = y2
  generalize x6 m.m_C6_BE m.m_d6_BE m.m_C8 m.m_d8 B2 E2 = y3
  calc s + y1 + y2 + y3 + x1 + x2 + x3
      = s + y1 + y2 + x1 + y3 + x2 + x3 := by rw [hc (s + y1 + y2) y3 x1]
    _ = s + y1 + x1 + y2 + y3 + x2 + x3 := by rw [hc (s + y1) y2 x1]
    _ = s + x1 + y1 + y2 + y3 + x2 + x3 := by rw [hc s y1 x1]
    _ = s + x1 + y1 + y2 + x2 + y3 + x3 := by rw [hc (s + x1 + y1 + y2) y3 x2]
    _ = s + x1 + y1 + x2 + y2 + y3 + x3 := by rw [hc (s + x1 + y1) y2 x2]
    _ = s + x1 + x2 + y1 + y2 + y3 + x3 := by rw [hc (s + x1) y1 x2]
    _ = s + x1 + x2 + y1 + y2 + x3 + y3 := by rw [hc (s + x1 + x2 + y1 + y2) y3 x3]
    _ = s + x1 + x2 + y1 + x3 + y2 + y3 := by rw [hc (s + x1 + x2 + y1) y2 x3]
    _ = s + x1 + x2 + x3 + y1 + y2 + y3 := by rw [hc (s + x1 + x2) y1 x3]

/-- Witness of C4 (amended) on the integer example, where addition is exact. -/
theorem C4_exchange_B_sites_witness :
    example_heap.addressable ∧ example_heap_B_exchanged.addressable ∧ 3 ≤ 3 ∧
    example_heap.readable ⟨0, 1⟩ (3 * 3) ∧ example_heap.readable ⟨1, 0⟩ (3 * 3) ∧
    example_heap_B_exchanged.readable ⟨0, 1⟩ (3 * 3) ∧
    example_heap_B_exchanged.readable ⟨1, 0⟩ (3 * 3) ∧
    exchanged_sites example_heap example_heap_B_exchanged ⟨0, 1⟩ ∧
    same_sites example_heap example_heap_B_exchanged ⟨1, 0⟩ ∧
    (∀ s a b : Int, s + a + b = s + b + a) ∧
    construct_and_get example_x6 example_coeffs example_heap_B_exchanged ⟨0, 1⟩ ⟨1, 0⟩ 3 3
      = construct_and_get example_x6 example_coeffs example_heap ⟨0, 1⟩ ⟨1, 0⟩ 3 3 := by
  refine ⟨by decide, by decide, by decide, by decide, by decide, by decide, by decide,
    by decide, by decide, fun s a b => by omega, ?_⟩
  obtain ⟨_, _, _, _, _, _, _, _, _, _, _, _, _, _, hc⟩ :=
    C4_exchange_B_sites example_x6 example_coeffs example_heap example_heap_B_exchanged
      ⟨0, 1⟩ ⟨1, 0⟩ 3 3 (by decide) (by decide) (by decide) (by decide) (by decide)
      (by decide) (by decide) (by decide) (by decide) (by decide)
  exact hc (fun s a b => by omega)

/-- C5: for all site counts `n1`, `n2` and input arrays holding at least `3*n1`
and `3*n2` doubles, the constructor yields an object whose first buffer has
length exactly `3*n1` and holds, element for element, the first `3*n1` doubles
of `c1`, and whose second buffer has length exactly `3*n2` and holds the first
`3*n2` doubles of `c2`; `get_dispersion` leaves the heap, hence both lengths,
as they are. -/
theorem C5_constructor_copies [Zero R] [Add R] (h : Heap R) (c1 c2 : Ptr) (n1 n2 : Nat)
    (ha : h.addressable) (hr1 : h.readable c1 (3 * n1)) (hr2 : h.readable c2 (3 * n2)) :
    ∃ (h1 : Heap R) (p1 p2 : Ptr) (b1 b2 : List (Option R)),
      ctor h c1 c2 n1 n2 = some (h1, ⟨some p1, some p2⟩) ∧
      p1.off = 0 ∧ h1.cells p1 = some b1 ∧ b1.length = 3 * n1 ∧
      (∀ i, i < 3 * n1 → b1[i]? = some (h.load (c1.add i)) ∧
        h1.load (p1.add i) = h.load (c1.add i) ∧ (h.load (c1.add i)).isSome = true) ∧
      p2.off = 0 ∧ h1.cells p2 = some b2 ∧ b2.length = 3 * n2 ∧
      (∀ i, i < 3 * n2 → b2[i]? = some (h.load (c2.add i)) ∧
        h1.load (p2.add i) = h.load (c2.add i) ∧ (h.load (c2.add i)).isSome = true) ∧
      ∀ (x6 : X6 R) (m : Coeffs R) (r : R × Heap R),
        get_dispersion x6 m h1 ⟨some p1, some p2⟩ = some r → r.2 = h1 := by
  refine ⟨_, _, _, h.read_array c1 (3 * n1), h.read_array c2 (3 * n2),
    ctor_eq_of_addressable h c1 c2 n1 n2 ha hr1 hr2, rfl, Heap.cells_new_fst _ _ _ _,
    Heap.read_array_length _ _ _, ?_, rfl, Heap.cells_new_snd _ _ _ _,
    Heap.read_array_length _ _ _, ?_, ?_⟩
  · intro i hi
    refine ⟨?_, ?_, hr1 i hi⟩
    · rw [Heap.read_array_getElem?, if_pos hi]
    · rw [load_xyz1, if_pos hi]
  · intro i hi
    refine ⟨?_, ?_, hr2 i hi⟩
    · rw [Heap.read_array_getElem?, if_pos hi]
    · rw [load_xyz2, if_pos hi]
  · intro x6 m r hr
    obtain ⟨_, _, _, _, _, _, _, _, _, _, _, _, _, _, _, e⟩ := get_dispersion_inv x6 m _ _ r hr
    exact e

/-- Witness of C5: construction from the integer example with `n1 = n2 = 3`. -/
theorem C5_constructor_copies_witness :
    example_heap.addressable ∧ example_heap.readable ⟨0, 1⟩ (3 * 3) ∧
    example_heap.readable ⟨1, 0⟩ (3 * 3) ∧
    ∃ (h1 : Heap Int) (p1 p2 : Ptr),
      ctor example_heap ⟨0, 1⟩ ⟨1, 0⟩ 3 3 = some (h1, ⟨some p1, some p2⟩) ∧
      h1.cells p1 = some [some 2, some 3, some 4, some 5, some 6, some 7, some 8, some 9,
        some 10] ∧
      h1.cells p2 = some [some 11, some 12, some 13, some 14, some 15, some 16, some 17,
        some 18, some 19] := by
  refine ⟨by decide, by decide, by decide, ?_⟩
  obtain ⟨h1, p1, p2, b1, b2, hc, _, hb1, hl1, he1, _, hb2, hl2, he2, _⟩ :=
    C5_constructor_copies example_heap ⟨0, 1⟩ ⟨1, 0⟩ 3 3 (by decide) (by decide) (by decide)
  refine ⟨h1, p1, p2, hc, ?_, ?_⟩
  · rw [hb1]
    congr 1
    apply List.ext_getElem?
    intro i
    by_cases hi : i < 3 * 3
    · rw [(he1 i hi).1]
      have : i = 0 ∨ i = 1 ∨ i = 2 ∨ i = 3 ∨ i = 4 ∨ i = 5 ∨ i = 6 ∨ i = 7 ∨ i = 8 := by
        omega
      rcases this with e | e | e | e | e | e | e | e | e <;> subst e <;> decide
    · rw [List.getElem?_eq_none (by omega), List.getElem?_eq_none (by simp; omega)]
  · rw [hb2]
    congr 1
    apply List.ext_getElem?
    intro i
    by_cases hi : i < 3 * 3
    · rw [(he2 i hi).1]
      have : i = 0 ∨ i = 1 ∨ i = 2 ∨ i = 3 ∨ i = 4 ∨ i = 5 ∨ i = 6 ∨ i = 7 ∨ i = 8 := by
        omega
      rcases this with e | e | e | e | e | e | e | e | e <;> subst e <;> decide
    · rw [List.getElem?_eq_none (by omega), List.getElem?_eq_none (by simp; omega)]

/-- C6: copy isolation.  After construction, writes to any memory that existed
before the construction, the caller's arrays among it, leave the two buffers
of the object as they are, and `get_dispersion` returns after the writes what it
returned before them. -/
theorem C6_copy_isolation [Zero R] [Add R] (h h1 h2 : Heap R) (c1 c2 : Ptr) (n1 n2 : Nat)
    (self : MBFit.x2b_disp) (hc : ctor h c1 c2 n1 n2 = some (h1, self))
    (ws : List (Ptr × R)) (hws : ∀ w ∈ ws, w.1.block < h.blocks.length)
    (hst : h1.stores ws = some h2) :
    (∀ p, self.xyz1 = some p ∨ self.xyz2 = some p → h2.cells p = h1.cells p) ∧
    ∀ (x6 : X6 R) (m : Coeffs R),
      (get_dispersion x6 m h2 self).map Prod.fst
        = (get_dispersion x6 m h1 self).map Prod.fst := by
  obtain ⟨hself, _⟩ := ctor_shape h h1 c1 c2 n1 n2 self hc
  have hb := Heap.stores_blocks ws h1 h2 h.blocks.length hws hst
  subst hself
  constructor
  · intro p hp
    have hpb : h.blocks.length ≤ p.block := by
      rcases hp with e | e <;> · cases e; simp
    unfold Heap.cells
    rw [hb p.block hpb]
  · intro x6 m
    apply get_dispersion_congr
    · intro off _
      apply Heap.point_congr
      intro i _
      exact Heap.load_eq_of_block (hb _ (Nat.le_refl _))
    · intro off _
      apply Heap.point_congr
      intro i _
      exact Heap.load_eq_of_block (hb _ (Nat.le_succ _))

/-- Witness of C6: two writes to the caller's arrays after construction from the
integer example; the value is 10593 before and after. -/
theorem C6_copy_isolation_witness :
    ctor example_heap ⟨0, 1⟩ ⟨1, 0⟩ 3 3 = some (example_built, example_object) ∧
    (∀ w ∈ example_writes, w.1.block < example_heap.blocks.length) ∧
    example_built.stores example_writes = some example_written ∧
    (get_dispersion example_x6 example_coeffs example_built example_object).map Prod.fst
      = some 10593 ∧
    (get_dispersion example_x6 example_coeffs example_written example_object).map Prod.fst
      = (get_dispersion example_x6 example_coeffs example_built example_object).map
        Prod.fst :=
  ⟨by decide, by decide, by decide, by decide,
    (C6_copy_isolation example_heap example_built example_written ⟨0, 1⟩ ⟨1, 0⟩ 3 3
      example_object (by decide) example_writes (by decide) (by decide)).2
      example_x6 example_coeffs⟩

/-- C7 (as stated, refuted): for `n1 = 6148914691236517206 ≥ 3` the `size_t`
product `3*n1` wraps around to 2; the constructor returns an object whose first
buffer has 2 elements, so the elements at indices 2..8 that `get_dispersion`
has `x6` read lie outside it: the read of element 2 is out of bounds. -/
theorem C7_wrap_counterexample :
    3 ≤ wrap_count ∧ 3 ≤ 3 ∧ size_t_mul 3 wrap_count = 2 ∧
    ctor example_heap ⟨0, 1⟩ ⟨1, 0⟩ wrap_count 3 = some (wrapped_built, example_object) ∧
    wrapped_built.cells ⟨2, 0⟩ = some [some 2, some 3] ∧
    wrapped_built.read (Ptr.add (Ptr.add ⟨2, 0⟩ 0) 2) = .error (.out_of_bounds ⟨2, 2⟩ 2) ∧
    get_dispersion_ptr (X6.deref example_x6) example_coeffs wrapped_built example_object
      = .error (.out_of_bounds ⟨2, 2⟩ 2) ∧
    get_dispersion example_x6 example_coeffs wrapped_built example_object = none :=
  ⟨by decide, by decide, by decide, by decide, by decide, rfl, rfl, by decide⟩

/-- C7 (amended): when `n1 ≥ 3` and `n2 ≥ 3`, the products `3*n1` and `3*n2` do
not wrap around in `size_t` and the input arrays hold that many doubles, the
constructor returns, and every element that `get_dispersion` has `x6` read,
the three doubles from each of the offsets 0, 3 and 6 of each buffer, lies
inside the buffer of length `3*n1`, respectively `3*n2`, that the constructor
allocated: every checked read succeeds and the call returns a value. -/
theorem C7_reads_in_bounds [Zero R] [Add R] (h : Heap R) (c1 c2 : Ptr) (n1 n2 : Nat)
    (hn1 : 3 ≤ n1) (hn2 : 3 ≤ n2)
    (hw1 : 3 * n1 < SIZE_RANGE) (hw2 : 3 * n2 < SIZE_RANGE)
    (hr1 : h.readable c1 (3 * n1)) (hr2 : h.readable c2 (3 * n2)) :
    ∃ (h1 : Heap R) (p1 p2 : Ptr) (b1 b2 : List (Option R)),
      ctor h c1 c2 n1 n2 = some (h1, ⟨some p1, some p2⟩) ∧
      p1.off = 0 ∧ h1.cells p1 = some b1 ∧ b1.length = 3 * n1 ∧
      p2.off = 0 ∧ h1.cells p2 = some b2 ∧ b2.length = 3 * n2 ∧
      (∀ off, off = 0 ∨ off = 3 ∨ off = 6 → ∀ i, i < 3 →
        off + i < b1.length ∧ (∃ v, h1.read ((p1.add off).add i) = .ok v) ∧
        off + i < b2.length ∧ (∃ v, h1.read ((p2.add off).add i) = .ok v)) ∧
      ∀ (x6 : X6 R) (m : Coeffs R), ∃ v,
        get_dispersion_ptr (X6.deref x6) m h1 ⟨some p1, some p2⟩ = .ok (v, h1) ∧
        get_dispersion x6 m h1 ⟨some p1, some p2⟩ = some (v, h1) := by
  refine ⟨_, _, _, h.read_array c1 (3 * n1), h.read_array c2 (3 * n2),
    ctor_eq_of_nowrap h c1 c2 n1 n2 hw1 hw2 hr1 hr2, rfl, Heap.cells_new_fst _ _ _ _,
    Heap.read_array_length _ _ _, rfl, Heap.cells_new_snd _ _ _ _,
    Heap.read_array_length _ _ _, ?_, ?_⟩
  · intro off hoff i hi
    rw [Heap.read_array_length, Heap.read_array_length, ptr_add_add, ptr_add_add]
    have b1 : off + i < 3 * n1 := by omega
    have b2 : off + i < 3 * n2 := by omega
    obtain ⟨v1, hv1⟩ := Option.isSome_iff_exists.mp (hr1 _ b1)
    obtain ⟨v2, hv2⟩ := Option.isSome_iff_exists.mp (hr2 _ b2)
    refine ⟨b1, ⟨v1, ?_⟩, b2, ⟨v2, ?_⟩⟩
    · apply Heap.read_of_load
      rw [load_xyz1, if_pos b1, hv1]
    · apply Heap.read_of_load
      rw [load_xyz2, if_pos b2, hv2]
  · intro x6 m
    obtain ⟨A, hA⟩ := Heap.point_isSome h c1 0 _ hr1 (by omega)
    obtain ⟨B1, hB1⟩ := Heap.point_isSome h c1 3 _ hr1 (by omega)
    obtain ⟨B2, hB2⟩ := Heap.point_isSome h c1 6 _ hr1 (by omega)
    obtain ⟨D, hD⟩ := Heap.point_isSome h c2 0 _ hr2 (by omega)
    obtain ⟨E1, hE1⟩ := Heap.point_isSome h c2 3 _ hr2 (by omega)
    obtain ⟨E2, hE2⟩ := Heap.point_isSome h c2 6 _ hr2 (by omega)
    have qA := (point_xyz1 h c1 c2 (3 * n1) (3 * n2) 0 (by omega)).trans hA
    have qB1 := (point_xyz1 h c1 c2 (3 * n1) (3 * n2) 3 (by omega)).trans hB1
    have qB2 := (point_xyz1 h c1 c2 (3 * n1) (3 * n2) 6 (by omega)).trans hB2
    have qD := (point_xyz2 h c1 c2 (3 * n1) (3 * n2) 0 (by omega)).trans hD
    have qE1 := (point_xyz2 h c1 c2 (3 * n1) (3 * n2) 3 (by omega)).trans hE1
    have qE2 := (point_xyz2 h c1 c2 (3 * n1) (3 * n2) 6 (by omega)).trans hE2
    exact ⟨_, get_dispersion_ptr_ok x6 m _ _ _ A B1 B2 D E1 E2
        (Heap.read_point_of_point qA) (Heap.read_point_of_point qB1)
        (Heap.read_point_of_point qB2) (Heap.read_point_of_point qD)
        (Heap.read_point_of_point qE1) (Heap.read_point_of_point qE2),
      get_dispersion_eq x6 m _ _ _ A B1 B2 D E1 E2 qA qB1 qB2 qD qE1 qE2⟩

/-- Witness of C7 (amended) on the integer example with `n1 = n2 = 3`. -/
theorem C7_reads_in_bounds_witness :
    3 ≤ 3 ∧ 3 * 3 < SIZE_RANGE ∧ example_heap.readable ⟨0, 1⟩ (3 * 3) ∧
    example_heap.readable ⟨1, 0⟩ (3 * 3) ∧
    ∃ (h1 : Heap Int) (p1 p2 : Ptr) (v : Int),
      ctor example_heap ⟨0, 1⟩ ⟨1, 0⟩ 3 3 = some (h1, ⟨some p1, some p2⟩) ∧
      get_dispersion_ptr (X6.deref example_x6) example_coeffs h1 ⟨some p1, some p2⟩
        = .ok (v, h1) := by
  refine ⟨by decide, by decide, by decide, by decide, ?_⟩
  obtain ⟨h1, p1, p2, _, _, hc, _, _, _, _, _, _, _, hg⟩ :=
    C7_reads_in_bounds example_heap ⟨0, 1⟩ ⟨1, 0⟩ 3 3 (by decide) (by decide) (by decide)
      (by decide) (by decide) (by decide)
  obtain ⟨v, hv, _⟩ := hg example_x6 example_coeffs
  exact ⟨h1, p1, p2, v, hc, hv⟩

/-- C9: `get_dispersion` is a pure function of the stored coordinates and the
coefficients.  When a call returns, the heap, and with it both coordinate
buffers, is as before, a second call on the same object returns the same value,
and a call on any object whose two buffers hold the same doubles returns that
value as well. -/
theorem C9_get_dispersion_pure [Zero R] [Add R] (x6 : X6 R) (m : Coeffs R) (h h1 : Heap R)
    (self : MBFit.x2b_disp) (v : R) (hr : get_dispersion x6 m h self = some (v, h1)) :
    h1 = h ∧ get_dispersion x6 m h1 self = some (v, h1) ∧
    ∀ (g : Heap R) (p1 p2 q1 q2 : Ptr), self = ⟨some p1, some p2⟩ →
      (∀ i, g.load (q1.add i) = h.load (p1.add i)) →
      (∀ i, g.load (q2.add i) = h.load (p2.add i)) →
      get_dispersion x6 m g ⟨some q1, some q2⟩ = some (v, g) := by
  obtain ⟨p1, p2, A, B1, B2, D, E1, E2, hself, hA, hB1, hB2, hD, hE1, hE2, e⟩ :=
    get_dispersion_inv x6 m h self (v, h1) hr
  have e1 : h1 = h := e
  subst e1
  refine ⟨rfl, hr, ?_⟩
  intro g r1 r2 q1 q2 hs l1 l2
  rw [hself] at hs
  cases hs
  rw [hself, get_dispersion_eq x6 m h1 p1 p2 A B1 B2 D E1 E2 hA hB1 hB2 hD hE1 hE2] at hr
  cases hr
  exact get_dispersion_eq x6 m g q1 q2 A B1 B2 D E1 E2
    ((Heap.point_congr g h1 q1 p1 0 (fun i _ => l1 _)).trans hA)
    ((Heap.point_congr g h1 q1 p1 3 (fun i _ => l1 _)).trans hB1)
    ((Heap.point_congr g h1 q1 p1 6 (fun i _ => l1 _)).trans hB2)
    ((Heap.point_congr g h1 q2 p2 0 (fun i _ => l2 _)).trans hD)
    ((Heap.point_congr g h1 q2 p2 3 (fun i _ => l2 _)).trans hE1)
    ((Heap.point_congr g h1 q2 p2 6 (fun i _ => l2 _)).trans hE2)

/-- Witness of C9: the object constructed from the integer example returns 10593
and leaves the heap as it is; so does a second call. -/
theorem C9_get_dispersion_pure_witness :
    get_dispersion example_x6 example_coeffs example_built example_object
      = some (10593, example_built) ∧
    get_dispersion example_x6 example_coeffs example_built example_object
      = some (10593, example_built) ∧
    get_dispersion example_x6 example_coeffs example_heap ⟨some ⟨0, 1⟩, some ⟨1, 0⟩⟩
      = some (10593, example_heap) := by
  have hr : get_dispersion example_x6 example_coeffs example_built example_object
      = some (10593, example_built) := by decide
  obtain ⟨_, h2, h3⟩ := C9_get_dispersion_pure example_x6 example_coeffs example_built
    example_built example_object 10593 hr
  refine ⟨hr, h2, h3 example_heap ⟨2, 0⟩ ⟨3, 0⟩ ⟨0, 1⟩ ⟨1, 0⟩ rfl ?_ ?_⟩
  · intro i
    by_cases hi : i < 9
    · have : i = 0 ∨ i = 1 ∨ i = 2 ∨ i = 3 ∨ i = 4 ∨ i = 5 ∨ i = 6 ∨ i = 7 ∨ i = 8 := by
        omega
      rcases this with e | e | e | e | e | e | e | e | e <;> subst e <;> decide
    · rw [Heap.load_none_of_length example_heap (Ptr.add ⟨0, 1⟩ i) _ rfl
          (by simp [Ptr.add]; omega),
        Heap.load_none_of_length example_built (Ptr.add ⟨2, 0⟩ i) _ rfl
          (by simp [Ptr.add]; omega)]
  · intro i
    by_cases hi : i < 9
    · have : i = 0 ∨ i = 1 ∨ i = 2 ∨ i = 3 ∨ i = 4 ∨ i = 5 ∨ i = 6 ∨ i = 7 ∨ i = 8 := by
        omega
      rcases this with e | e | e | e | e | e | e | e | e <;> subst e <;> decide
    · rw [Heap.load_none_of_length example_heap (Ptr.add ⟨1, 0⟩ i) _ rfl
          (by simp [Ptr.add]; omega),
        Heap.load_none_of_length example_built (Ptr.add ⟨3, 0⟩ i) _ rfl
          (by simp [Ptr.add]; omega)]

/-- C10: for `n1 = 3`, `n2 = 3` and eighteen input coordinates equal to zero,
construction and `get_dispersion` succeed, each of the six sites read is the
zero point, and the result is the sum from left to right of `x6` at the zero
point for both points, once with `(C6_AD, d6_AD)`, twice with `(C6_AE, d6_AE)`,
once with `(C6_BD, d6_BD)`, twice with `(C6_BE, d6_BE)`, once with
`(C6_BD, d6_BD)` and twice with `(C6_BE, d6_BE)`; when `x6` returns the guard
value `g` at the zero points, the result is `g` added nine times to `0.0`. -/
theorem C10_all_zero [Zero R] [Add R] (x6 : X6 R) (m : Coeffs R) (h : Heap R)
    (c1 c2 : Ptr) (hz1 : ∀ i, i < 9 → h.load (c1.add i) = some 0)
    (hz2 : ∀ i, i < 9 → h.load (c2.add i) = some 0) :
    ∃ (h1 : Heap R) (p1 p2 : Ptr),
      ctor h c1 c2 3 3 = some (h1, ⟨some p1, some p2⟩) ∧
      (∀ off, off = 0 ∨ off = 3 ∨ off = 6 →
        h1.point (p1.add off) = some (0, 0, 0) ∧ h1.point (p2.add off) = some (0, 0, 0)) ∧
      get_dispersion x6 m h1 ⟨some p1, some p2⟩ = some
        (0 + x6 m.m_C6_AD m.m_d6_AD m.m_C8 m.m_d8 (0, 0, 0) (0, 0, 0)
           + x6 m.m_C6_AE m.m_d6_AE m.m_C8 m.m_d8 (0, 0, 0) (0, 0, 0)
           + x6 m.m_C6_AE m.m_d6_AE m.m_C8 m.m_d8 (0, 0, 0) (0, 0, 0)
           + x6 m.m_C6_BD m.m_d6_BD m.m_C8 m.m_d8 (0, 0, 0) (0, 0, 0)
           + x6 m.m_C6_BE m.m_d6_BE m.m_C8 m.m_d8 (0, 0, 0) (0, 0, 0)
           + x6 m.m_C6_BE m.m_d6_BE m.m_C8 m.m_d8 (0, 0, 0) (0, 0, 0)
           + x6 m.m_C6_BD m.m_d6_BD m.m_C8 m.m_d8 (0, 0, 0) (0, 0, 0)
           + x6 m.m_C6_BE m.m_d6_BE m.m_C8 m.m_d8 (0, 0, 0) (0, 0, 0)
           + x6 m.m_C6_BE m.m_d6_BE m.m_C8 m.m_d8 (0, 0, 0) (0, 0, 0), h1) ∧
      ∀ g : R, (∀ C6 d6 C8 d8 : R, x6 C6 d6 C8 d8 (0, 0, 0) (0, 0, 0) = g) →
        get_dispersion x6 m h1 ⟨some p1, some p2⟩
          = some (0 + g + g + g + g + g + g + g + g + g, h1) := by
  have k : size_t_mul 3 3 = 9 := by decide
  have hr1 : h.readable c1 (size_t_mul 3 3) := by
    intro i hi
    rw [k] at hi
    rw [hz1 i hi]; rfl
  have hr2 : h.readable c2 (size_t_mul 3 3) := by
    intro i hi
    rw [k] at hi
    rw [hz2 i hi]; rfl
  have pz1 : ∀ off, off = 0 ∨ off = 3 ∨ off = 6 →
      Heap.point ⟨h.blocks ++ [some (h.read_array c1 (size_t_mul 3 3)),
        some (h.read_array c2 (size_t_mul 3 3))]⟩ ((⟨h.blocks.length, 0⟩ : Ptr).add off)
        = some (0, 0, 0) := by
    intro off ho
    rw [point_xyz1 h c1 c2 _ _ off (by rw [k]; omega)]
    exact Heap.point_of_loads h c1 off 0 0 0 (hz1 _ (by omega)) (hz1 _ (by omega))
      (hz1 _ (by omega))
  have pz2 : ∀ off, off = 0 ∨ off = 3 ∨ off = 6 →
      Heap.point ⟨h.blocks ++ [some (h.read_array c1 (size_t_mul 3 3)),
        some (h.read_array c2 (size_t_mul 3 3))]⟩ ((⟨h.blocks.length + 1, 0⟩ : Ptr).add off)
        = some (0, 0, 0) := by
    intro off ho
    rw [point_xyz2 h c1 c2 _ _ off (by rw [k]; omega)]
    exact Heap.point_of_loads h c2 off 0 0 0 (hz2 _ (by omega)) (hz2 _ (by omega))
      (hz2 _ (by omega))
  have hv := get_dispersion_eq x6 m _ _ _ _ _ _ _ _ _
    (pz1 0 (by simp)) (pz1 3 (by simp)) (pz1 6 (by simp))
    (pz2 0 (by simp)) (pz2 3 (by simp)) (pz2 6 (by simp))
  refine ⟨_, _, _, ctor_eq h c1 c2 3 3 hr1 hr2, fun off ho => ⟨pz1 off ho, pz2 off ho⟩,
    hv, ?_⟩
  intro g hg
  rw [hv, hg, hg, hg, hg]

/-- Witness of C10 on two arrays of nine zeros, with a stub whose guard value at
the zero points is 1. -/
theorem C10_all_zero_witness :
    (∀ i, i < 9 → zero_heap.load (Ptr.add ⟨0, 0⟩ i) = some 0) ∧
    (∀ i, i < 9 → zero_heap.load (Ptr.add ⟨1, 0⟩ i) = some 0) ∧
    ∃ (h1 : Heap Int) (p1 p2 : Ptr),
      ctor zero_heap ⟨0, 0⟩ ⟨1, 0⟩ 3 3 = some (h1, ⟨some p1, some p2⟩) ∧
      get_dispersion (fun _ _ _ _ a b => 1 + a.1 + b.1) example_coeffs h1
        ⟨some p1, some p2⟩ = some (9, h1) := by
  refine ⟨by decide, by decide, ?_⟩
  obtain ⟨h1, p1, p2, hc, _, _, hg⟩ :=
    C10_all_zero (fun _ _ _ _ a b => 1 + a.1 + b.1) example_coeffs zero_heap ⟨0, 0⟩ ⟨1, 0⟩
      (by decide) (by decide)
  exact ⟨h1, p1, p2, hc, hg 1 (fun _ _ _ _ => rfl)⟩

/-! ## Lemmas on allocation and release -/

theorem Heap.store_live {h h1 : Heap R} {p : Ptr} {v : R} (hs : h.store p v = some h1)
    (b : Nat) (hb : ∃ cs, h.blocks[b]? = some (some cs)) :
    ∃ cs, h1.blocks[b]? = some (some cs) := by
  by_cases hbp : b = p.block
  · unfold Heap.store at hs
    cases hc : h.cells p with
    | none => rw [hc] at hs; cases hs
    | some cs =>
      rw [hc] at hs
      simp only at hs
      split at hs
      · cases hs
        obtain ⟨cs0, hcs0⟩ := hb
        have hlt : p.block < h.blocks.length := by
          by_contra hge
          rw [hbp, List.getElem?_eq_none (Nat.le_of_not_lt hge)] at hcs0
          cases hcs0
        refine ⟨cs.set p.off (some v), ?_⟩
        rw [hbp]
        exact List.getElem?_set_self hlt
      · cases hs
  · rw [(Heap.store_blocks hs).2 b hbp]
    exact hb

theorem std_copy_blocks (k : Nat) : ∀ (g g1 : Heap R) (first d : Ptr),
    std_copy g first k d = some g1 →
    (∀ b : Nat, b ≠ d.block → g1.blocks[b]? = g.blocks[b]?) ∧
    ∀ b : Nat, (∃ cs, g.blocks[b]? = some (some cs)) →
      ∃ cs, g1.blocks[b]? = some (some cs) := by
  induction k with
  | zero =>
    intro g g1 first d hc
    simp only [std_copy] at hc
    cases hc
    exact ⟨fun _ _ => rfl, fun _ hb => hb⟩
  | succ k ih =>
    intro g g1 first d hc
    simp only [std_copy] at hc
    cases hl : g.load first with
    | none => rw [hl] at hc; cases hc
    | some v =>
      rw [hl] at hc
      simp only at hc
      cases hst : g.store d v with
      | none => rw [hst] at hc; cases hc
      | some g2 =>
        rw [hst] at hc
        simp only at hc
        obtain ⟨i1, i2⟩ := ih g2 g1 _ _ hc
        constructor
        · intro b hb
          rw [i1 b hb]
          exact (Heap.store_blocks hst).2 b hb
        · intro b hb
          exact i2 b (Heap.store_live hst b hb)

/-- The heap that the constructor leaves, from the fact that it returned: what
was there is as it was, and two live blocks have been added. -/
theorem ctor_blocks (h h1 : Heap R) (c1 c2 : Ptr) (n1 n2 : Nat) (self : MBFit.x2b_disp)
    (hc : ctor h c1 c2 n1 n2 = some (h1, self)) :
    h1.blocks.length = h.blocks.length + 2 ∧
    (∀ b, b < h.blocks.length → h1.blocks[b]? = h.blocks[b]?) ∧
    (∃ cs, h1.blocks[h.blocks.length]? = some (some cs)) ∧
    (∃ cs, h1.blocks[h.blocks.length + 1]? = some (some cs)) := by
  have hlen := (ctor_shape h h1 c1 c2 n1 n2 self hc).2
  unfold ctor Heap.new_array at hc
  simp only [List.length_append, List.length_singleton] at hc
  split at hc
  · rename_i h3 e3
    split at hc
    · rename_i h4 e4
      cases hc
      obtain ⟨a1, a2⟩ := std_copy_blocks _ _ _ _ _ e3
      obtain ⟨b1, b2⟩ := std_copy_blocks _ _ _ _ _ e4
      refine ⟨hlen, ?_, ?_, ?_⟩
      · intro b hb
        rw [b1 b (by simp only; omega), a1 b (by simp only; omega)]
        simp only
        rw [List.append_assoc, List.getElem?_append_left hb]
      · exact b2 _ (a2 _ ⟨_, list_append_two_fst _ _ _⟩)
      · exact b2 _ (a2 _ ⟨_, list_append_two_snd _ _ _⟩)
    · cases hc
  · cases hc

theorem Heap.delete_array_eq (h : Heap R) (b : Nat) (cs : List (Option R))
    (hb : h.blocks[b]? = some (some cs)) :
    h.delete_array ⟨b, 0⟩ = some ⟨h.blocks.set b none⟩ := by
  unfold Heap.delete_array Heap.cells
  simp only [hb]
  rfl

theorem Heap.delete_array_released (h : Heap R) (p : Ptr)
    (hb : h.blocks[p.block]? = some none) : h.delete_array p = none := by
  unfold Heap.delete_array Heap.cells
  rw [hb]
  rfl

/-! ## The claims, continued -/

/-- C11 (as stated, refuted): on the integer example none of the nine calls
hands `x6` two points followed by four doubles, and all nine hand it four
doubles followed by two points. -/
theorem C11_points_first_counterexample :
    example_built.readable ⟨2, 0⟩ 9 ∧ example_built.readable ⟨3, 0⟩ 9 ∧
    get_dispersion (positional points_first) example_coeffs example_built example_object
      = some (0, example_built) ∧
    get_dispersion (positional points_last) example_coeffs example_built example_object
      = some (9, example_built) := by
  decide

/-- C11 (amended): `get_dispersion` consumes `x6` with the signature
`(C6, d6, C8, d8, point_a, point_b) -> double`: in each of the nine calls the
first four arguments are `C6`, `d6`, `C8`, `d8` in that order, followed by the
A-side point and then the B-side point. -/
theorem C11_argument_order [Zero R] [Add R] (f : List (Arg R) → R) (m : Coeffs R)
    (h : Heap R) (p1 p2 : Ptr) (h1 : h.readable p1 9) (h2 : h.readable p2 9) :
    ∃ A B1 B2 D E1 E2 : Point R,
      h.point (p1.add 0) = some A ∧ h.point (p1.add 3) = some B1 ∧
      h.point (p1.add 6) = some B2 ∧ h.point (p2.add 0) = some D ∧
      h.point (p2.add 3) = some E1 ∧ h.point (p2.add 6) = some E2 ∧
      get_dispersion (positional f) m h ⟨some p1, some p2⟩ = some
        (0 + f [.scalar m.m_C6_AD, .scalar m.m_d6_AD, .scalar m.m_C8, .scalar m.m_d8,
                .point A, .point D]
           + f [.scalar m.m_C6_AE, .scalar m.m_d6_AE, .scalar m.m_C8, .scalar m.m_d8,
                .point A, .point E1]
           + f [.scalar m.m_C6_AE, .scalar m.m_d6_AE, .scalar m.m_C8, .scalar m.m_d8,
                .point A, .point E2]
           + f [.scalar m.m_C6_BD, .scalar m.m_d6_BD, .scalar m.m_C8, .scalar m.m_d8,
                .point B1, .point D]
           + f [.scalar m.m_C6_BE, .scalar m.m_d6_BE, .scalar m.m_C8, .scalar m.m_d8,
                .point B1, .point E1]
           + f [.scalar m.m_C6_BE, .scalar m.m_d6_BE, .scalar m.m_C8, .scalar m.m_d8,
                .point B1, .point E2]
           + f [.scalar m.m_C6_BD, .scalar m.m_d6_BD, .scalar m.m_C8, .scalar m.m_d8,
                .point B2, .point D]
           + f [.scalar m.m_C6_BE, .scalar m.m_d6_BE, .scalar m.m_C8, .scalar m.m_d8,
                .point B2, .point E1]
           + f [.scalar m.m_C6_BE, .scalar m.m_d6_BE, .scalar m.m_C8, .scalar m.m_d8,
                .point B2, .point E2], h) := by
  obtain ⟨A, hA⟩ := Heap.point_isSome h p1 0 9 h1 (by omega)
  obtain ⟨B1, hB1⟩ := Heap.point_isSome h p1 3 9 h1 (by omega)
  obtain ⟨B2, hB2⟩ := Heap.point_isSome h p1 6 9 h1 (by omega)
  obtain ⟨D, hD⟩ := Heap.point_isSome h p2 0 9 h2 (by omega)
  obtain ⟨E1, hE1⟩ := Heap.point_isSome h p2 3 9 h2 (by omega)
  obtain ⟨E2, hE2⟩ := Heap.point_isSome h p2 6 9 h2 (by omega)
  exact ⟨A, B1, B2, D, E1, E2, hA, hB1, hB2, hD, hE1, hE2,
    get_dispersion_eq (positional f) m h p1 p2 A B1 B2 D E1 E2 hA hB1 hB2 hD hE1 hE2⟩

/-- Witness of C11 (amended) on the integer example: nine calls with four
doubles followed by two points. -/
theorem C11_argument_order_witness :
    example_built.readable ⟨2, 0⟩ 9 ∧ example_built.readable ⟨3, 0⟩ 9 ∧
    (get_dispersion (positional points_last) example_coeffs example_built
      ⟨some ⟨2, 0⟩, some ⟨3, 0⟩⟩).map Prod.fst = some 9 := by
  refine ⟨by decide, by decide, ?_⟩
  obtain ⟨A, B1, B2, D, E1, E2, _, _, _, _, _, _, hv⟩ :=
    C11_argument_order points_last example_coeffs example_built ⟨2, 0⟩ ⟨3, 0⟩
      (by decide) (by decide)
  rw [hv]
  rfl

/-- C12 (as stated, refuted): the default constructor makes no allocation, so
the number of allocations at construction is 0 and not 2; both members stay
indeterminate, and the destructor of such an object is undefined. -/
theorem C12_default_constructor_counterexample :
    (ctor_default_step example_heap).1.blocks.length = example_heap.blocks.length ∧
    (ctor_default_step example_heap).1.blocks.length ≠ example_heap.blocks.length + 2 ∧
    (ctor_default_step example_heap).2 = ⟨none, none⟩ ∧
    dtor (ctor_default_step example_heap).1 (ctor_default_step example_heap).2 = none := by
  decide

/-- C12 (amended): for every object built by the four-argument constructor,
construction makes exactly two buffer allocations and leaves everything else in
the heap as it was, and destruction releases exactly those two buffers once
each: what the object did not allocate is not released, both buffers are
released, and a buffer that has been released cannot be released again.  The
default constructor makes no allocation. -/
theorem C12_two_allocations_two_releases (h h1 : Heap R) (c1 c2 : Ptr) (n1 n2 : Nat)
    (self : MBFit.x2b_disp) (hc : ctor h c1 c2 n1 n2 = some (h1, self)) :
    h1.blocks.length = h.blocks.length + 2 ∧
    (∀ b : Nat, b < h.blocks.length → h1.blocks[b]? = h.blocks[b]?) ∧
    (∃ (b1 b2 : List (Option R)) (h2 : Heap R),
      self = ⟨some ⟨h.blocks.length, 0⟩, some ⟨h.blocks.length + 1, 0⟩⟩ ∧
      h1.blocks[h.blocks.length]? = some (some b1) ∧
      h1.blocks[h.blocks.length + 1]? = some (some b2) ∧
      dtor h1 self = some h2 ∧
      h2.blocks = h.blocks ++ [none, none] ∧
      dtor h2 self = none) ∧
    (ctor_default_step h).1 = h := by
  obtain ⟨hlen, hold, ⟨b1, hb1⟩, ⟨b2, hb2⟩⟩ := ctor_blocks h h1 c1 c2 n1 n2 self hc
  have hself := (ctor_shape h h1 c1 c2 n1 n2 self hc).1
  have hb2s : (h1.blocks.set h.blocks.length none)[h.blocks.length + 1]? = some (some b2) := by
    rw [List.getElem?_set_ne (by omega)]
    exact hb2
  have hfinal : (h1.blocks.set h.blocks.length none).set (h.blocks.length + 1) none
      = h.blocks ++ [none, none] := by
    apply List.ext_getElem?
    intro n
    by_cases hn : n < h.blocks.length
    · rw [List.getElem?_set_ne (by omega), List.getElem?_set_ne (by omega), hold n hn,
        List.getElem?_append_left hn]
    · by_cases hn0 : n = h.blocks.length
      · subst hn0
        rw [List.getElem?_set_ne (by omega), List.getElem?_set_self (by omega),
          List.getElem?_append_right (Nat.le_refl _), Nat.sub_self]
        rfl
      · by_cases hn1 : n = h.blocks.length + 1
        · subst hn1
          rw [List.getElem?_set_self (by rw [List.length_set]; omega),
            List.getElem?_append_right (by omega), Nat.add_sub_cancel_left]
          rfl
        · rw [List.getElem?_eq_none (by rw [List.length_set, List.length_set]; omega),
            List.getElem?_eq_none (by
              rw [List.length_append]; simp only [List.length_cons, List.length_nil]; omega)]
  have hdtor : dtor h1 self = some ⟨h.blocks ++ [none, none]⟩ := by
    rw [hself]
    unfold dtor
    simp only
    rw [Heap.delete_array_eq h1 _ b1 hb1]
    simp only
    rw [Heap.delete_array_eq _ _ b2 hb2s, hfinal]
  have hagain : dtor (⟨h.blocks ++ [none, none]⟩ : Heap R) self = none := by
    rw [hself]
    unfold dtor
    simp only
    rw [Heap.delete_array_released _ ⟨h.blocks.length, 0⟩ (by
      show (h.blocks ++ [none, none])[h.blocks.length]? = some none
      rw [List.getElem?_append_right (Nat.le_refl _), Nat.sub_self]
      rfl)]
  exact ⟨hlen, hold, ⟨b1, b2, _, hself, hb1, hb2, hdtor, rfl, hagain⟩, rfl⟩

/-- Witness of C12 (amended): construction from the integer example, then
destruction; a second destruction is undefined. -/
theorem C12_two_allocations_two_releases_witness :
    ctor example_heap ⟨0, 1⟩ ⟨1, 0⟩ 3 3 = some (example_built, example_object) ∧
    example_built.blocks.length = example_heap.blocks.length + 2 ∧
    dtor example_built example_object = some example_destroyed ∧
    dtor example_destroyed example_object = none := by
  have hc : ctor example_heap ⟨0, 1⟩ ⟨1, 0⟩ 3 3 = some (example_built, example_object) := by
    decide
  obtain ⟨hlen, _, ⟨_, _, h2, _, _, _, hd, hb, hd2⟩, _⟩ :=
    C12_two_allocations_two_releases example_heap example_built ⟨0, 1⟩ ⟨1, 0⟩ 3 3
      example_object hc
  have e : h2 = example_destroyed := by
    cases h2
    exact congrArg Heap.mk hb
  rw [e] at hd hd2
  exact ⟨hc, hlen, hd, hd2⟩

/-- C13 (as stated, refuted): two constructions from the same two arrays, hence
agreeing on elements 0..8, with site counts `3, 3` and
`6148914691236517206, 3`, all at least 3.  The first returns 10593; in the
second `3*n1` wraps around to 2, the first buffer has 2 elements and the call
is an out-of-bounds read with no value. -/
theorem C13_wrap_counterexample :
    3 ≤ 3 ∧ 3 ≤ wrap_count ∧
    ctor example_heap ⟨0, 1⟩ ⟨1, 0⟩ 3 3 = some (example_built, example_object) ∧
    get_dispersion_ptr (X6.deref example_x6) example_coeffs example_built example_object
      = .ok (10593, example_built) ∧
    ctor example_heap ⟨0, 1⟩ ⟨1, 0⟩ wrap_count 3 = some (wrapped_built, example_object) ∧
    get_dispersion_ptr (X6.deref example_x6) example_coeffs wrapped_built example_object
      = .error (.out_of_bounds ⟨2, 2⟩ 2) ∧
    construct_and_get example_x6 example_coeffs example_heap ⟨0, 1⟩ ⟨1, 0⟩ 3 3
      = some 10593 ∧
    construct_and_get example_x6 example_coeffs example_heap ⟨0, 1⟩ ⟨1, 0⟩ wrap_count 3
      = none :=
  ⟨by decide, by decide, by decide, rfl, by decide, rfl, by decide, by decide⟩

/-- C13 (amended): the result of `get_dispersion` depends only on the first nine
doubles of each buffer.  Two constructions with site counts at least 3 whose
products with 3 do not wrap around in `size_t`, from arrays that hold that many
doubles, whose first arrays agree on elements 0..8 and whose second arrays agree
on elements 0..8, return the same value, whatever the site counts and the
doubles beyond the third site. -/
theorem C13_first_nine_doubles [Zero R] [Add R] (x6 : X6 R) (m : Coeffs R) (h g : Heap R)
    (c1 c2 d1 d2 : Ptr) (n1 n2 k1 k2 : Nat)
    (hn1 : 3 ≤ n1) (hn2 : 3 ≤ n2) (hk1 : 3 ≤ k1) (hk2 : 3 ≤ k2)
    (wn1 : 3 * n1 < SIZE_RANGE) (wn2 : 3 * n2 < SIZE_RANGE)
    (wk1 : 3 * k1 < SIZE_RANGE) (wk2 : 3 * k2 < SIZE_RANGE)
    (hr1 : h.readable c1 (3 * n1)) (hr2 : h.readable c2 (3 * n2))
    (gr1 : g.readable d1 (3 * k1)) (gr2 : g.readable d2 (3 * k2))
    (e1 : ∀ i, i < 9 → g.load (d1.add i) = h.load (c1.add i))
    (e2 : ∀ i, i < 9 → g.load (d2.add i) = h.load (c2.add i)) :
    ∃ v : R, construct_and_get x6 m h c1 c2 n1 n2 = some v ∧
      construct_and_get x6 m g d1 d2 k1 k2 = some v := by
  obtain ⟨A, hA⟩ := Heap.point_isSome h c1 0 _ hr1 (by omega)
  obtain ⟨B1, hB1⟩ := Heap.point_isSome h c1 3 _ hr1 (by omega)
  obtain ⟨B2, hB2⟩ := Heap.point_isSome h c1 6 _ hr1 (by omega)
  obtain ⟨D, hD⟩ := Heap.point_isSome h c2 0 _ hr2 (by omega)
  obtain ⟨E1, hE1⟩ := Heap.point_isSome h c2 3 _ hr2 (by omega)
  obtain ⟨E2, hE2⟩ := Heap.point_isSome h c2 6 _ hr2 (by omega)
  have gA : g.point (d1.add 0) = some A :=
    (Heap.point_congr g h d1 c1 0 (fun i hi => e1 (0 + i) (by omega))).trans hA
  have gB1 : g.point (d1.add 3) = some B1 :=
    (Heap.point_congr g h d1 c1 3 (fun i hi => e1 (3 + i) (by omega))).trans hB1
  have gB2 : g.point (d1.add 6) = some B2 :=
    (Heap.point_congr g h d1 c1 6 (fun i hi => e1 (6 + i) (by omega))).trans hB2
  have gD : g.point (d2.add 0) = some D :=
    (Heap.point_congr g h d2 c2 0 (fun i hi => e2 (0 + i) (by omega))).trans hD
  have gE1 : g.point (d2.add 3) = some E1 :=
    (Heap.point_congr g h d2 c2 3 (fun i hi => e2 (3 + i) (by omega))).trans hE1
  have gE2 : g.point (d2.add 6) = some E2 :=
    (Heap.point_congr g h d2 c2 6 (fun i hi => e2 (6 + i) (by omega))).trans hE2
  exact ⟨_, construct_and_get_eq_nowrap x6 m h c1 c2 n1 n2 wn1 wn2 hn1 hn2 hr1 hr2
      A B1 B2 D E1 E2 hA hB1 hB2 hD hE1 hE2,
    construct_and_get_eq_nowrap x6 m g d1 d2 k1 k2 wk1 wk2 hk1 hk2 gr1 gr2
      A B1 B2 D E1 E2 gA gB1 gB2 gD gE1 gE2⟩

/-- Witness of C13 (amended): three sites each in `example_heap` against four and
five sites in `long_heap`; both constructions return 10593. -/
theorem C13_first_nine_doubles_witness :
    3 ≤ 3 ∧ 3 ≤ 4 ∧ 3 ≤ 5 ∧
    3 * 3 < SIZE_RANGE ∧ 3 * 4 < SIZE_RANGE ∧ 3 * 5 < SIZE_RANGE ∧
    example_heap.readable ⟨0, 1⟩ (3 * 3) ∧ example_heap.readable ⟨1, 0⟩ (3 * 3) ∧
    long_heap.readable ⟨0, 0⟩ (3 * 4) ∧ long_heap.readable ⟨1, 0⟩ (3 * 5) ∧
    (∀ i, i < 9 → long_heap.load (Ptr.add ⟨0, 0⟩ i) = example_heap.load (Ptr.add ⟨0, 1⟩ i)) ∧
    (∀ i, i < 9 → long_heap.load (Ptr.add ⟨1, 0⟩ i) = example_heap.load (Ptr.add ⟨1, 0⟩ i)) ∧
    construct_and_get example_x6 example_coeffs example_heap ⟨0, 1⟩ ⟨1, 0⟩ 3 3 = some 10593 ∧
    construct_and_get example_x6 example_coeffs long_heap ⟨0, 0⟩ ⟨1, 0⟩ 4 5 = some 10593 := by
  refine ⟨by decide, by decide, by decide, by decide, by decide, by decide, by decide,
    by decide, by decide, by decide, by decide, by decide, by decide, ?_⟩
  obtain ⟨v, hv, gv⟩ := C13_first_nine_doubles example_x6 example_coeffs example_heap
    long_heap ⟨0, 1⟩ ⟨1, 0⟩ ⟨0, 0⟩ ⟨1, 0⟩ 3 3 4 5 (by decide) (by decide) (by decide)
    (by decide) (by decide) (by decide) (by decide) (by decide) (by decide) (by decide)
    (by decide) (by decide) (by decide) (by decide)
  have e : construct_and_get example_x6 example_coeffs example_heap ⟨0, 1⟩ ⟨1, 0⟩ 3 3
      = some 10593 := by decide
  rw [gv, ← hv, e]

end MBFit
